import Mathlib

/-!
Verification of the CnvSvg2Dxf conversion pipeline (SVG → DXF).

Shallow embedding of the relevant parts of the Python sources:
`src/transform_utils.py`, `src/path_parser.py`, `src/svg_loader.py`,
`src/mapping.py`, `src/dxf_writer.py` and `src/models.py`.

Modelling conventions:
* Python `float` values are modelled as exact rationals (`ℚ`) where the code
  only parses, stores and multiplies them, and as real numbers (`ℝ`) where
  the code computes square roots and inverse trigonometric functions
  (`math.hypot`, `math.acos`).  IEEE-754 rounding is not modelled.
* Python string parsing of floats (`float(s)`) is modelled by `pyFloat`,
  which implements CPython's accepted grammar (sign, digits, decimal point,
  exponent, surrounding whitespace).  The special literals `inf`/`nan` and
  underscore digit separators are not modelled; no claim depends on them.
* Python exceptions are modelled with `Except`/`Option`.
* Python dictionaries are modelled as association lists in insertion order.
-/

namespace Svg2Dxf

/-! ## Python string primitives -/

/-- Whitespace as stripped by Python's `str.strip()` / `float()` (ASCII part). -/
def pyWS (c : Char) : Bool :=
  c = ' ' || c = '\t' || c = '\n' || c = '\r'

/-- Strip characters satisfying `p` from both ends of a character list. -/
def stripChars (p : Char → Bool) (l : List Char) : List Char :=
  ((l.dropWhile p).reverse.dropWhile p).reverse

/-- Python `str.strip()` (whitespace at both ends). -/
def pyStrip (s : String) : String :=
  ⟨stripChars pyWS s.data⟩

/-- Python `str.lower()` for the ASCII range (model of `str.lower`). -/
def pyLowerChar (c : Char) : Char :=
  if 'A' ≤ c ∧ c ≤ 'Z' then Char.ofNat (c.toNat + 32) else c

def pyLower (s : String) : String :=
  ⟨s.data.map pyLowerChar⟩

/-- Python `str.upper()` for the ASCII range (model of `str.upper`). -/
def pyUpperChar (c : Char) : Char :=
  if 'a' ≤ c ∧ c ≤ 'z' then Char.ofNat (c.toNat - 32) else c

def pyUpper (s : String) : String :=
  ⟨s.data.map pyUpperChar⟩

/-- Python `s.startswith(pre)`. -/
def pyStartsWith (s pre : String) : Bool :=
  pre.data.isPrefixOf s.data

/-- Value of a list of decimal digit characters. -/
def digitsVal (l : List Char) : ℕ :=
  l.foldl (fun a c => 10 * a + (c.toNat - 48)) 0

/-! ### `pyFloat`: model of CPython `float(str)` -/

/-- Parse an optional sign; returns the sign as a rational and the rest. -/
def parseSign : List Char → ℚ × List Char
  | '+' :: r => (1, r)
  | '-' :: r => (-1, r)
  | r => (1, r)

/-- Parse the exponent suffix (after the mantissa); the whole remaining input
must be consumed. -/
def parseExpSuffix (m : ℚ) : List Char → Option ℚ
  | [] => some m
  | 'e' :: r =>
    let (sg, r1) := parseSign r
    let ip := r1.takeWhile Char.isDigit
    let rest := r1.dropWhile Char.isDigit
    if ip = [] ∨ rest ≠ [] then none
    else some (m * (10 : ℚ) ^ (sg.num * digitsVal ip : ℤ))
  | 'E' :: r =>
    let (sg, r1) := parseSign r
    let ip := r1.takeWhile Char.isDigit
    let rest := r1.dropWhile Char.isDigit
    if ip = [] ∨ rest ≠ [] then none
    else some (m * (10 : ℚ) ^ (sg.num * digitsVal ip : ℤ))
  | _ => none

/-- Parse the unsigned mantissa and optional exponent. -/
def parseMantissa (cs : List Char) : Option ℚ :=
  let ip := cs.takeWhile Char.isDigit
  let r1 := cs.dropWhile Char.isDigit
  match r1 with
  | '.' :: r2 =>
    let fp := r2.takeWhile Char.isDigit
    let r3 := r2.dropWhile Char.isDigit
    if ip = [] ∧ fp = [] then none
    else parseExpSuffix ((digitsVal ip : ℚ) + (digitsVal fp : ℚ) / 10 ^ fp.length) r3
  | _ =>
    if ip = [] then none else parseExpSuffix (digitsVal ip : ℚ) r1

/-- Model of CPython `float(s)`: `none` when `float` raises `ValueError`. -/
def pyFloat (s : String) : Option ℚ :=
  let cs := stripChars pyWS s.data
  let (sg, r) := parseSign cs
  (parseMantissa r).map (sg * ·)

/-! ## Transform algebra (`src/transform_utils.py`)

3×3 affine matrices over `ℝ` (the `rotate`/`skew` commands need `cos`, `sin`
and `tan`).  Numeric arguments are parsed exactly (`pyFloat`, `ℚ`) and then
coerced into `ℝ`. -/

/-- A 3×3 matrix, row major, mirroring the `numpy` arrays of the source. -/
structure M3 where
  a11 : ℝ
  a12 : ℝ
  a13 : ℝ
  a21 : ℝ
  a22 : ℝ
  a23 : ℝ
  a31 : ℝ
  a32 : ℝ
  a33 : ℝ

/-- `identity_matrix()`. -/
def identity_matrix : M3 := ⟨1, 0, 0, 0, 1, 0, 0, 0, 1⟩

/-- `multiply(a, b)` = `a @ b` (matrix product). -/
def multiply (a b : M3) : M3 :=
  ⟨a.a11 * b.a11 + a.a12 * b.a21 + a.a13 * b.a31,
   a.a11 * b.a12 + a.a12 * b.a22 + a.a13 * b.a32,
   a.a11 * b.a13 + a.a12 * b.a23 + a.a13 * b.a33,
   a.a21 * b.a11 + a.a22 * b.a21 + a.a23 * b.a31,
   a.a21 * b.a12 + a.a22 * b.a22 + a.a23 * b.a32,
   a.a21 * b.a13 + a.a22 * b.a23 + a.a23 * b.a33,
   a.a31 * b.a11 + a.a32 * b.a21 + a.a33 * b.a31,
   a.a31 * b.a12 + a.a32 * b.a22 + a.a33 * b.a32,
   a.a31 * b.a13 + a.a32 * b.a23 + a.a33 * b.a33⟩

/-- `translation_matrix(tx, ty)`. -/
def translation_matrix (tx ty : ℝ) : M3 := ⟨1, 0, tx, 0, 1, ty, 0, 0, 1⟩

/-- `scale_matrix(sx, sy)`. -/
def scale_matrix (sx sy : ℝ) : M3 := ⟨sx, 0, 0, 0, sy, 0, 0, 0, 1⟩

/-- `math.radians(x)`. -/
noncomputable def radians (x : ℝ) : ℝ := x * Real.pi / 180

/-- `_matrix_for_command(name, args)`.  Index errors of the source
(`args[0]` on an empty list) are modelled by `Except.error`. -/
noncomputable def matrix_for_command (name : String) (args : List ℚ) :
    Except Unit M3 :=
  if name = "matrix" ∧ args.length = 6 then
    match args with
    | [a, b, c, d, e, f] =>
      .ok ⟨(a : ℝ), (c : ℝ), (e : ℝ), (b : ℝ), (d : ℝ), (f : ℝ), 0, 0, 1⟩
    | _ => .error ()
  else if name = "translate" then
    match args with
    | [] => .error ()
    | tx :: rest => .ok (translation_matrix (tx : ℝ) (((rest.head?).getD 0 : ℚ) : ℝ))
  else if name = "scale" then
    match args with
    | [] => .error ()
    | sx :: rest => .ok (scale_matrix (sx : ℝ) (((rest.head?).getD sx : ℚ) : ℝ))
  else if name = "rotate" then
    match args with
    | [] => .error ()
    | a0 :: rest =>
      let angle := radians (a0 : ℝ)
      let R : M3 := ⟨Real.cos angle, -Real.sin angle, 0,
                     Real.sin angle, Real.cos angle, 0, 0, 0, 1⟩
      if rest.length = 2 then
        match rest with
        | [cx, cy] =>
          .ok (multiply (multiply (translation_matrix (cx : ℝ) (cy : ℝ)) R)
                (translation_matrix (-(cx : ℝ)) (-(cy : ℝ))))
        | _ => .error ()
      else .ok R
  else if name = "skewx" then
    match args with
    | [] => .error ()
    | a0 :: _ => .ok ⟨1, Real.tan (radians (a0 : ℝ)), 0, 0, 1, 0, 0, 0, 1⟩
  else if name = "skewy" then
    match args with
    | [] => .error ()
    | a0 :: _ => .ok ⟨1, 0, 0, Real.tan (radians (a0 : ℝ)), 1, 0, 0, 0, 1⟩
  else .ok identity_matrix

/-- Scanner for `TRANSFORM_RE = [a-zA-Z]+\(([^)]+)\)` over the input,
mirroring `re.finditer`: at each position try to match a maximal letter run,
an opening parenthesis, at least one non-`)` character and a closing
parenthesis; on failure restart one character later (for this pattern,
backtracking inside the letter run can never succeed). -/
def scanTransformAux (fuel : ℕ) (l : List Char) :
    List (List Char × List Char) :=
  match fuel with
  | 0 => []
  | fuel + 1 =>
    match l with
    | [] => []
    | c :: rest =>
      match (c :: rest).takeWhile Char.isAlpha,
            (c :: rest).dropWhile Char.isAlpha with
      | n0 :: ns, '(' :: r2 =>
        match r2.takeWhile (· ≠ ')'), r2.dropWhile (· ≠ ')') with
        | a0 :: as_, ')' :: r4 =>
          (n0 :: ns, a0 :: as_) :: scanTransformAux fuel r4
        | _, _ => scanTransformAux fuel rest
      | _, _ => scanTransformAux fuel rest

/-- Every step of `scanTransformAux` consumes at least one character, so the
input length is sufficient fuel. -/
def scanTransformCalls (l : List Char) : List (List Char × List Char) :=
  scanTransformAux l.length l

/-- Split an argument string on runs of spaces/commas
(`re.split(r"[ ,]+", ...)` plus the `if x` filter). -/
def splitArgs (l : List Char) : List (List Char) :=
  (l.splitOnP (fun c => c = ' ' ∨ c = ',')).filter (· ≠ [])

/-- Parse all numeric arguments of a transform command
(`[float(x) for x in ...]`); a `ValueError` aborts `parse_transform`. -/
def parseArgs (args : List Char) : Except Unit (List ℚ) :=
  (splitArgs (stripChars pyWS args)).foldr
    (fun tok acc => do
      let q ← match pyFloat ⟨tok⟩ with
              | some q => Except.ok q
              | none => Except.error ()
      let rest ← acc
      pure (q :: rest))
    (Except.ok [])

/-- `parse_transform(transform)`.  The matrix is accumulated left-to-right:
`matrix = multiply(matrix, _matrix_for_command(name, args))`. -/
noncomputable def parse_transform (transform : Option String) :
    Except Unit M3 :=
  match transform with
  | none => .ok identity_matrix
  | some s =>
    if s = "" then .ok identity_matrix
    else
      (scanTransformCalls (stripChars pyWS s.data)).foldl
        (fun acc (tok : List Char × List Char) => do
          let m ← acc
          let args ← parseArgs tok.2
          let cmd ← matrix_for_command (pyLower ⟨tok.1⟩) args
          pure (multiply m cmd))
        (.ok identity_matrix)

/-- A 2D point. -/
abbrev Pt := ℝ × ℝ

/-- `transform_point(matrix, point)` (`matrix @ [x, y, 1]`). -/
def transform_point (m : M3) (p : Pt) : Pt :=
  (m.a11 * p.1 + m.a12 * p.2 + m.a13, m.a21 * p.1 + m.a22 * p.2 + m.a23)

/-- `apply_transform(matrix, points)`. -/
def apply_transform (m : M3) (points : List Pt) : List Pt :=
  points.map (transform_point m)

/-! ## Attribute parsers (`src/svg_loader.py`) -/

/-- `UNIT_CONVERSIONS` (mm per unit; 96 px = 1 in = 25.4 mm). -/
def UNIT_CONVERSIONS : List (String × ℚ) :=
  [("mm", 1), ("cm", 10), ("in", 254/10),
   ("pt", (254/10) / 72), ("pc", (254/10) / 6), ("px", (254/10) / 96)]

/-- `parse_length(value)`.  The unit is the concatenation of *all* alphabetic
characters of the (stripped) string; the numeric part is the string with
trailing ASCII letters removed (`value.rstrip("ab...XYZ")`).  A failed
`float()` yields `0.0`.  None of the unit factors is `0`, so the source's
falsiness test `if not factor` coincides with the lookup failing.
(Python's `str.isalpha` also accepts non-ASCII letters; only ASCII letters
are modelled, which no claim depends on.)

`lengthUnitPart` is `unit = "".join(ch for ch in value if ch.isalpha())`:
*all* alphabetic characters of the stripped string, in order. -/
def lengthUnitPart (s : String) : String :=
  ⟨(pyStrip s).data.filter Char.isAlpha⟩

/-- `number = value.rstrip("ab...XYZ")`: the stripped string with trailing
ASCII letters removed. -/
def lengthNumberPart (s : String) : String :=
  ⟨((pyStrip s).data.reverse.dropWhile Char.isAlpha).reverse⟩

def parse_length (value : Option String) : ℚ :=
  match value with
  | none => 0
  | some v =>
    if v = "" then 0
    else
      match pyFloat (lengthNumberPart v) with
      | none => 0
      | some magnitude =>
        if lengthUnitPart v = "" then magnitude
        else
          match UNIT_CONVERSIONS.lookup (pyLower (lengthUnitPart v)) with
          | none => magnitude
          | some factor => magnitude * factor

/-- Split a character list into the maximal runs not containing a separator
(model of `str.split()`, which ignores leading/trailing separators and never
produces empty tokens; the redundant `.strip()` the source applies first is
absorbed by this behaviour). -/
def splitTokens (p : Char → Bool) : List Char → List (List Char)
  | [] => []
  | c :: r =>
    if p c then splitTokens p r
    else
      match r with
      | [] => [[c]]
      | d :: _ =>
        if p d then [c] :: splitTokens p r
        else
          match splitTokens p r with
          | [] => [[c]]
          | t :: ts => (c :: t) :: ts

/-- The paired `for i in range(0, len(parts), 2)` loop of
`parse_points_attribute`: each token pair is float-parsed; a `ValueError`
skips the pair. -/
def pairLoop : List (List Char) → List (ℚ × ℚ)
  | a :: b :: rest =>
    (match pyFloat ⟨a⟩, pyFloat ⟨b⟩ with
     | some x, some y => [(x, y)]
     | _, _ => []) ++ pairLoop rest
  | _ => []

/-- `parse_points_attribute(value)`: commas are replaced by spaces, the
string is split on whitespace, an odd trailing token is dropped, and the
tokens are consumed pairwise. -/
def parse_points_attribute (value : String) : List (ℚ × ℚ) :=
  let cleaned := value.data.map (fun c => if c = ',' then ' ' else c)
  let parts := splitTokens pyWS cleaned
  let parts := if parts.length % 2 ≠ 0 then parts.dropLast else parts
  pairLoop parts

/-- Adjacent pairing of a token list (spec-side helper for C10). -/
def chunkPairs : List (List Char) → List (List Char × List Char)
  | a :: b :: rest => (a, b) :: chunkPairs rest
  | _ => []

/-- Spec-side restatement of claim C10: tokens are the maximal runs
separated by whitespace or commas; if the token count is odd the final
token is dropped; the result consists of exactly the pairs in which both
tokens parse as floats, in input order. -/
def parse_points_spec (value : String) : List (ℚ × ℚ) :=
  let parts := splitTokens (fun c => pyWS c || c = ',') value.data
  let parts := if parts.length % 2 ≠ 0 then parts.dropLast else parts
  (chunkPairs parts).filterMap
    (fun ab => match pyFloat ⟨ab.1⟩, pyFloat ⟨ab.2⟩ with
               | some x, some y => some (x, y)
               | _, _ => none)

/-! ## Polyline simplifier (`src/path_parser.py`, `simplify_polyline`)

Real-valued geometry: `math.hypot` is `Real.sqrt` of the sum of squares and
`math.degrees(math.acos ...)` is `Real.arccos · * 180 / π`. -/

/-- `hypot(dx, dy)` of the vector from `p` to `q` (segment length). -/
noncomputable def seglen (p q : Pt) : ℝ :=
  Real.sqrt ((q.1 - p.1) ^ 2 + (q.2 - p.2) ^ 2)

/-- The nested `angle(p_prev, p_curr, p_next)` helper of `simplify_polyline`:
the turn angle in degrees between the incoming and outgoing segment, forced
to `180.0` when either adjacent segment is shorter than `min_segment` or has
zero length; the cosine is clamped to `[-1, 1]` before `acos`. -/
noncomputable def turnAngle (min_segment : ℝ) (p c n : Pt) : ℝ :=
  let len1 := seglen p c
  let len2 := seglen c n
  if len1 < min_segment ∨ len2 < min_segment ∨ len1 = 0 ∨ len2 = 0 then 180
  else
    let dot := (c.1 - p.1) * (n.1 - c.1) + (c.2 - p.2) * (n.2 - c.2)
    Real.arccos (max (-1) (min 1 (dot / (len1 * len2)))) * 180 / Real.pi

/-- The interior loop of `simplify_polyline` rendered as a recursion over
consecutive point triples: for each interior point `c` (with original
neighbours `p` and `n`) keep `c` exactly when its turn angle exceeds the
tolerance.  Applied to the whole list this is the open-polyline loop
`for i in range(1, len(points) - 1)`; applied to `core ++ [core[0]]` it is
the closed-polyline loop `for i in range(1, total)` with its wrap-around
neighbour `core[(i + 1) % total]`. -/
noncomputable def interiorKeep (angle_tol min_segment : ℝ) :
    List Pt → List Pt
  | p :: c :: n :: rest =>
    (if turnAngle min_segment p c n > angle_tol then [c] else []) ++
      interiorKeep angle_tol min_segment (c :: n :: rest)
  | _ => []

/-- `simplify_polyline(points, closed=..., angle_tol=0.5, min_segment=0.05)`.
Inputs with fewer than 3 points are returned unchanged.  For closed inputs
a duplicated last point is dropped first (`core_points`), every point except
`core_points[0]` is tested with wrap-around neighbours, and the start point
is re-appended if the reduced ring is not closed.  For open inputs the first
and last points are always retained. -/
noncomputable def simplify_polyline (points : List Pt) (closed : Bool)
    (angle_tol min_segment : ℝ) : List Pt :=
  if points.length < 3 then points
  else if closed then
    let core := if points.headI = points.getLastI then points.dropLast
                else points
    let simplified :=
      core.headI :: interiorKeep angle_tol min_segment (core ++ [core.headI])
    if simplified.headI ≠ simplified.getLastI then
      simplified ++ [simplified.headI]
    else simplified
  else
    points.headI :: (interiorKeep angle_tol min_segment points
      ++ [points.getLastI])

/-! ## C7: transform composition -/

deriving instance DecidableEq for Except

lemma matrix_for_translate_10_0 :
    matrix_for_command "translate" [(10 : ℚ), 0] =
      .ok (translation_matrix 10 0) := by
  unfold matrix_for_command
  rw [if_neg (by decide), if_pos rfl]
  norm_num

lemma matrix_for_scale_2_2 :
    matrix_for_command "scale" [(2 : ℚ), 2] = .ok (scale_matrix 2 2) := by
  unfold matrix_for_command
  rw [if_neg (by decide), if_neg (by decide), if_pos rfl]
  norm_num

/-- C7: parsing the transform list `translate(10,0) scale(2,2)` and applying
the resulting matrix to the point `(1, 1)` yields exactly `(12, 2)`: the
list is composed left-to-right, so the scale acts on the point before the
translation. -/
theorem C7_transform_composition :
    (parse_transform (some "translate(10,0) scale(2,2)")).map
      (fun m => transform_point m ((1 : ℝ), (1 : ℝ))) =
      Except.ok ((12 : ℝ), (2 : ℝ)) := by
  have hscan : scanTransformCalls
      (stripChars pyWS ("translate(10,0) scale(2,2)").data) =
      [("translate".data, "10,0".data), ("scale".data, "2,2".data)] := by
    decide
  have hargs1 : parseArgs ("10,0".data) = .ok [(10 : ℚ), 0] := by
    simp +decide [parseArgs, splitArgs, stripChars, pyFloat, parseMantissa,
      parseExpSuffix, parseSign, digitsVal]
  have hargs2 : parseArgs ("2,2".data) = .ok [(2 : ℚ), 2] := by
    simp +decide [parseArgs, splitArgs, stripChars, pyFloat, parseMantissa,
      parseExpSuffix, parseSign, digitsVal]
  have hlow1 : pyLower ⟨"translate".data⟩ = "translate" := by decide
  have hlow2 : pyLower ⟨"scale".data⟩ = "scale" := by decide
  simp only [parse_transform]
  rw [if_neg (by decide), hscan]
  simp only [List.foldl_cons, List.foldl_nil, bind, Except.bind, pure,
    Except.pure, hargs1, hargs2, hlow1, hlow2, matrix_for_translate_10_0,
    matrix_for_scale_2_2, Except.map]
  unfold multiply identity_matrix translation_matrix scale_matrix
    transform_point
  norm_num

/-! ## C10: points-attribute parsing -/

lemma pairLoop_eq_chunkPairs (l : List (List Char)) :
    pairLoop l = (chunkPairs l).filterMap
      (fun ab => match pyFloat ⟨ab.1⟩, pyFloat ⟨ab.2⟩ with
                 | some x, some y => some (x, y)
                 | _, _ => none) := by
  induction l using pairLoop.induct with
  | case1 a b rest ih =>
    simp only [pairLoop, chunkPairs, List.filterMap_cons, ih]
    cases pyFloat ⟨a⟩ <;> cases pyFloat ⟨b⟩ <;> simp
  | case2 t h =>
    cases t with
    | nil => rfl
    | cons a t' =>
      cases t' with
      | nil => rfl
      | cons b rest => exact ((h a b rest) rfl).elim

lemma pyWS_replaceComma (c : Char) :
    pyWS (if c = ',' then ' ' else c) = (pyWS c || c = ',') := by
  by_cases h : c = ',' <;> simp [h, pyWS]

lemma splitTokens_cons_sep (p : Char → Bool) (c : Char) (r : List Char)
    (h : p c = true) : splitTokens p (c :: r) = splitTokens p r := by
  simp [splitTokens, h]

lemma splitTokens_singleton_tok (p : Char → Bool) (c : Char)
    (h : p c = false) : splitTokens p [c] = [[c]] := by
  simp [splitTokens, h]

lemma splitTokens_tok_sep (p : Char → Bool) (c d : Char) (r : List Char)
    (h : p c = false) (hd : p d = true) :
    splitTokens p (c :: d :: r) = [c] :: splitTokens p (d :: r) := by
  simp [splitTokens, h, hd]

lemma splitTokens_tok_tok (p : Char → Bool) (c d : Char) (r : List Char)
    (h : p c = false) (hd : p d = false) (t : List Char)
    (ts : List (List Char))
    (hsub : splitTokens p (d :: r) = (d :: t) :: ts) :
    splitTokens p (c :: d :: r) = (c :: d :: t) :: ts := by
  conv_lhs => rw [splitTokens.eq_def]
  simp only [h, hd, Bool.false_eq_true, if_false, hsub]

/-- A token list starting at a non-separator begins with a token headed by
that character. -/
lemma splitTokens_shape (p : Char → Bool) (r : List Char) (d : Char)
    (h : p d = false) :
    ∃ t ts, splitTokens p (d :: r) = (d :: t) :: ts := by
  induction r generalizing d with
  | nil => exact ⟨[], [], splitTokens_singleton_tok p d h⟩
  | cons e r' ih =>
    by_cases he : p e = true
    · exact ⟨[], splitTokens p (e :: r'),
        splitTokens_tok_sep p d e r' h he⟩
    · have he' : p e = false := by revert he; cases p e <;> simp
      obtain ⟨t, ts, ht⟩ := ih e he'
      exact ⟨e :: t, ts, splitTokens_tok_tok p d e r' h he' t ts ht⟩

lemma splitTokens_map_comma (l : List Char) :
    splitTokens pyWS (l.map (fun c => if c = ',' then ' ' else c)) =
      splitTokens (fun c => pyWS c || c = ',') l := by
  induction l with
  | nil => rfl
  | cons c r ih =>
    by_cases hsep : (pyWS c || (c = ',' : Bool)) = true
    · have hl : pyWS (if c = ',' then ' ' else c) = true := by
        rw [pyWS_replaceComma]; exact hsep
      rw [List.map_cons, splitTokens_cons_sep _ _ _ hl,
        splitTokens_cons_sep _ _ _ hsep, ih]
    · have hsep' : (pyWS c || (c = ',' : Bool)) = false :=
        Bool.not_eq_true _ ▸ eq_false_of_ne_true hsep
      have hc : c ≠ ',' := by
        intro h; subst h; simp at hsep
      have hrl : (if c = ',' then ' ' else c) = c := if_neg hc
      have hl : pyWS c = false := by
        rcases Bool.or_eq_false_iff.mp hsep' with ⟨h1, _⟩; exact h1
      cases r with
      | nil =>
        rw [List.map_cons, List.map_nil, hrl,
          splitTokens_singleton_tok _ _ hl,
          splitTokens_singleton_tok _ _ hsep']
      | cons d r' =>
        by_cases hd : (pyWS d || (d = ',' : Bool)) = true
        · have hdl : pyWS (if d = ',' then ' ' else d) = true := by
            rw [pyWS_replaceComma]; exact hd
          rw [List.map_cons, List.map_cons, hrl,
            splitTokens_tok_sep _ _ _ _ hl hdl,
            splitTokens_tok_sep _ _ _ _ hsep' hd]
          rw [← List.map_cons (fun c => if c = ',' then ' ' else c) d r', ih]
        · have hd' : (pyWS d || (d = ',' : Bool)) = false :=
            Bool.not_eq_true _ ▸ eq_false_of_ne_true hd
          have hdc : d ≠ ',' := by
            intro h; subst h; simp at hd
          have hdrl : (if d = ',' then ' ' else d) = d := if_neg hdc
          have hdl : pyWS d = false := by
            rcases Bool.or_eq_false_iff.mp hd' with ⟨h1, _⟩; exact h1
          obtain ⟨t, ts, ht⟩ :=
            splitTokens_shape (fun c => pyWS c || c = ',') r' d hd'
          have hmap : splitTokens pyWS
              ((d :: r').map (fun c => if c = ',' then ' ' else c)) =
              (d :: t) :: ts := by rw [ih, ht]
          rw [List.map_cons] at hmap
          rw [hdrl] at hmap
          rw [List.map_cons, List.map_cons, hrl, hdrl,
            splitTokens_tok_tok _ _ _ _ hl hdl t ts hmap,
            splitTokens_tok_tok _ _ _ _ hsep' hd' t ts ht]

/-- C10: `parse_points_attribute` never raises and tolerates malformed
coordinate data — for every input string it equals the declarative
description `parse_points_spec`: tokens are split on whitespace/commas, an
odd trailing token is dropped, and the result consists of exactly the
successfully float-parsed `(x, y)` pairs, in input order (pairs with a
parse failure are silently skipped). -/
theorem C10_parse_points_tolerant (value : String) :
    parse_points_attribute value = parse_points_spec value := by
  unfold parse_points_attribute parse_points_spec
  dsimp only
  rw [splitTokens_map_comma, pairLoop_eq_chunkPairs]

/-! ## C9: the length parser -/

/-- C9 counterexample: the claim says a recognized unit *suffix* multiplies
the magnitude, so `"1e1cm"` (suffix `cm`, magnitude `1e1 = 10`) would have
to yield `100`.  The code derives the unit from *all* alphabetic characters
(`"ecm"`, unrecognized) and returns the bare magnitude `10`. -/
theorem C9_counterexample :
    parse_length (some "1e1cm") = 10 ∧ parse_length (some "1e1cm") ≠ 100 := by
  have h : parse_length (some "1e1cm") = 10 := by
    simp +decide [parse_length, lengthNumberPart, lengthUnitPart, pyStrip,
      stripChars, pyFloat, parseMantissa, parseExpSuffix, parseSign,
      digitsVal, pyLower, pyLowerChar, UNIT_CONVERSIONS]
  exact ⟨h, by rw [h]; norm_num⟩

/-- C9 (amended): `parse_length` is total (never raises).  It returns `0` on
an absent or empty value and on a float-parse failure of the numeric part;
otherwise the unit is the concatenation of **all** alphabetic characters of
the string (not just the trailing suffix): with no alphabetic characters the
bare magnitude (millimetres) is returned; when the lowercased letter string
is one of `mm`/`cm`/`in`/`pt`/`pc`/`px` the magnitude is multiplied by the
unit factor; with any other letter combination the bare magnitude is
returned unchanged. -/
theorem C9_parse_length_cases (s : String) (q : ℚ) :
    parse_length none = 0 ∧
    parse_length (some "") = 0 ∧
    (pyFloat (lengthNumberPart s) = none → parse_length (some s) = 0) ∧
    (pyFloat (lengthNumberPart s) = some q → s ≠ "" →
      ((lengthUnitPart s = "" → parse_length (some s) = q) ∧
       (∀ f, UNIT_CONVERSIONS.lookup (pyLower (lengthUnitPart s)) = some f →
          parse_length (some s) = q * f) ∧
       (lengthUnitPart s ≠ "" →
        UNIT_CONVERSIONS.lookup (pyLower (lengthUnitPart s)) = none →
          parse_length (some s) = q))) := by
  refine ⟨rfl, rfl, ?_, ?_⟩
  · intro hnone
    simp only [parse_length]
    by_cases hs : s = ""
    · rw [if_pos hs]
    · rw [if_neg hs, hnone]
  · intro hsome hne
    refine ⟨?_, ?_, ?_⟩
    · intro hu
      simp only [parse_length]
      rw [if_neg hne, hsome]
      dsimp only
      rw [if_pos hu]
    · intro f hf
      simp only [parse_length]
      rw [if_neg hne, hsome]
      have hu : ¬ lengthUnitPart s = "" := by
        intro h
        rw [h] at hf
        simp +decide [pyLower, UNIT_CONVERSIONS, List.lookup] at hf
      dsimp only
      rw [if_neg hu, hf]
    · intro hu hl
      simp only [parse_length]
      rw [if_neg hne, hsome]
      dsimp only
      rw [if_neg hu, hl]

/-- Witness for C9: `"10cm"` has unit `cm` and parses to `10 · 10 = 100`. -/
theorem C9_parse_length_cases_witness :
    parse_length (some "10cm") = 10 * 10 := by
  have hnum : pyFloat (lengthNumberPart "10cm") = some 10 := by
    simp +decide [lengthNumberPart, pyStrip, stripChars, pyFloat,
      parseMantissa, parseExpSuffix, parseSign, digitsVal]
  have hlook : UNIT_CONVERSIONS.lookup (pyLower (lengthUnitPart "10cm")) =
      some 10 := by
    simp +decide [lengthUnitPart, pyStrip, stripChars, pyLower, pyLowerChar,
      UNIT_CONVERSIONS]
  exact ((C9_parse_length_cases "10cm" 10).2.2.2 hnum (by decide)).2.1 10 hlook

/-! ## Shared string lemmas -/

lemma dropWhile_eq_self_of {p : Char → Bool} {l : List Char}
    (h : ∀ c ∈ l, p c = false) : l.dropWhile p = l := by
  cases l with
  | nil => rfl
  | cons c r =>
    rw [List.dropWhile_cons, h c (List.mem_cons_self c r)]
    simp

lemma stripChars_eq_self {p : Char → Bool} {l : List Char}
    (h : ∀ c ∈ l, p c = false) : stripChars p l = l := by
  unfold stripChars
  rw [dropWhile_eq_self_of h,
    dropWhile_eq_self_of (fun c hc => h c (List.mem_reverse.mp hc)),
    List.reverse_reverse]

lemma pyStrip_eq_self {s : String} (h : ∀ c ∈ s.data, pyWS c = false) :
    pyStrip s = s := by
  unfold pyStrip
  rw [stripChars_eq_self h]

lemma pyLower_eq_self {s : String}
    (h : ∀ c ∈ s.data, pyLowerChar c = c) : pyLower s = s := by
  unfold pyLower
  rw [List.map_congr_left h, List.map_id']

/-- Two strings with different head characters are different. -/
lemma head_ne_string (s t : String) (c : Char) (cs : List Char)
    (hs : s.data = c :: cs) (hne : t.data.head? ≠ some c) : s ≠ t := by
  intro he
  apply hne
  rw [← he, hs]
  rfl

/-- A `List.lookup` hit is a member of the association list. -/
lemma lookup_mem {α β : Type} [BEq α] [LawfulBEq α]
    (l : List (α × β)) (a : α) (b : β) (h : l.lookup a = some b) :
    (a, b) ∈ l := by
  induction l with
  | nil => simp [List.lookup] at h
  | cons kv r ih =>
    rw [List.lookup] at h
    cases hk : (a == kv.1) with
    | true =>
      rw [hk] at h
      dsimp only at h
      have h1 : a = kv.1 := eq_of_beq hk
      have h2 : b = kv.2 := by injection h with h'; exact h'.symm
      rw [h1, h2]
      exact List.mem_cons_self _ _
    | false =>
      rw [hk] at h
      dsimp only at h
      exact List.mem_cons_of_mem _ (ih h)

/-! ## Data model (`src/models.py`) -/

/-- Kind-specific extra data of a primitive; only the fields the claims
exercise (`closed`, `origin` for polylines) are modelled. -/
structure PrimExtra where
  closed : Bool := false
  origin : Option String := none
deriving DecidableEq

/-- `SvgPrimitive` (`src/models.py`).  Style values and raw attributes are
strings; `classes` is the ordered tuple of class names. -/
structure SvgPrimitive where
  kind : String
  points : List Pt := []
  style : List (String × String) := []
  classes : List String := []
  element_id : Option String := none
  attributes : List (String × String) := []
  extra : PrimExtra := {}

/-- `MappingRule` (`src/models.py`). -/
structure MappingRule where
  selector : String
  layer : String
  color : String := "BYLAYER"
  linetype : String := "Continuous"
  lineweight_mm : Option ℚ := none
deriving DecidableEq

/-- `LayerAttributes` (`src/models.py`). -/
structure LayerAttributes where
  layer : String
  color : String := "BYLAYER"
  linetype : String := "Continuous"
  lineweight_mm : Option ℚ := none
deriving DecidableEq

/-! ## Mapping resolver (`src/mapping.py`) -/

/-- `CSS_COLOR_MAP`. -/
def CSS_COLOR_MAP : List (String × String) :=
  [("black", "#000000"), ("white", "#FFFFFF"), ("red", "#FF0000"),
   ("green", "#00FF00"), ("blue", "#0000FF"), ("yellow", "#FFFF00"),
   ("magenta", "#FF00FF"), ("cyan", "#00FFFF"), ("gray", "#808080"),
   ("grey", "#808080"), ("lightgray", "#D3D3D3"), ("darkgray", "#404040")]

def isHexDigit (c : Char) : Bool :=
  c.isDigit || ('a' ≤ c && c ≤ 'f') || ('A' ≤ c && c ≤ 'F')

/-- `normalize_hex(value)`: `#RGB` is doubled into `#RRGGBB`; a `#`-less or
wrong-length or non-hex value raises `ValueError` (`Except.error`).
(`int(hex_value, 16)` is modelled as an all-hex-digits check; its
fringe acceptance of underscores/whitespace is not modelled.) -/
def normalize_hex (value : String) : Except Unit String :=
  if ¬ pyStartsWith value "#" then .error ()
  else
    let hex0 := value.data.drop 1
    let hex1 := if hex0.length = 3 then hex0.flatMap (fun c => [c, c])
                else hex0
    if hex1.length ≠ 6 then .error ()
    else if ¬ hex1.all isHexDigit then .error ()
    else .ok ⟨'#' :: hex1.map pyUpperChar⟩

/-- `parse_color_spec(value, fallback)`: accepts `BYLAYER`/`BYBLOCK`
(case-insensitive), `#`-hex (normalized, invalid hex falls back), and the
named CSS colors; anything else falls back.  (All `CSS_COLOR_MAP` values
are non-empty, so the source's truthiness test `if css` always passes on a
lookup hit.) -/
def parse_color_spec (value fallback : Option String) : Option String :=
  match value with
  | none => fallback
  | some v =>
    if v = "" then fallback
    else
      let spec := pyStrip v
      if spec = "" then fallback
      else if pyLower spec = "bylayer" then some "BYLAYER"
      else if pyLower spec = "byblock" then some "BYBLOCK"
      else if pyStartsWith spec "#" then
        match normalize_hex spec with
        | .ok s => some s
        | .error _ => fallback
      else
        match CSS_COLOR_MAP.lookup (pyLower spec) with
        | some css => some css
        | none => fallback

/-- The stripped stroke/fill value of `_color_from_style` when it selects
the hex branch (non-`none`/`transparent` and starting with `#`). -/
def hexColorCandidate (v : Option String) : Option String :=
  match v with
  | none => none
  | some s =>
    let s' := pyStrip s
    if (s' ≠ "none" ∧ s' ≠ "transparent") ∧ pyStartsWith s' "#" then some s'
    else none

/-- `MappingManager._color_from_style`: stroke hex, else fill hex, else
`BYLAYER`; `normalize_hex` may raise (uncaught here). -/
def color_from_style (style : List (String × String)) : Except Unit String :=
  match hexColorCandidate (style.lookup "stroke") with
  | some s => normalize_hex s
  | none =>
    match hexColorCandidate (style.lookup "fill") with
    | some s => normalize_hex s
    | none => .ok "BYLAYER"

/-- `MappingManager._lineweight_from_style`: `float(value)` with a
`parse_length` fallback (`parse_length` is total, so the source's inner
`except` is dead). -/
def lineweight_from_style (style : List (String × String)) : Option ℚ :=
  match style.lookup "stroke-width" with
  | none => none
  | some v =>
    if v = "" then none
    else
      let v' := pyStrip v
      match pyFloat v' with
      | some q => some q
      | none => some (parse_length (some v'))

/-- `MappingManager._linetype_from_style`. -/
def linetype_from_style (style : List (String × String)) : String :=
  match style.lookup "stroke-dasharray" with
  | none => "Continuous"
  | some d =>
    if d ≠ "" ∧ d ≠ "none" ∧ d ≠ "0" then "DASHED" else "Continuous"

/-- `_sanitize_layer_name(value)`: uppercase, non-alphanumeric (other than
`-`/`_`) replaced by `_`, empty input becomes `MATERIAL`. -/
def sanitize_layer_name (value : String) : String :=
  let mapped := (pyUpper value).data.map
    (fun c => if c.isAlphanum || c = '-' || c = '_' then c else '_')
  if mapped = [] then "MATERIAL" else ⟨mapped⟩

/-! ### Glob matching (`fnmatch.fnmatch`, external library)

Modelled from the Python standard library: `*` matches any sequence, `?`
any single character, `[seq]` a character set with ranges and `!` negation;
an unterminated `[` is a literal.  On POSIX `fnmatch` does not change case.
No claim evaluates the matcher; it is embedded for faithfulness of
`_matches_selector`. -/

/-- Membership of `d` in a character-class body (ranges `a-b` supported). -/
def globSetMatch : List Char → Char → Bool
  | [], _ => false
  | a :: '-' :: b :: rest, d =>
    (a.toNat ≤ d.toNat && d.toNat ≤ b.toNat) || globSetMatch rest d
  | a :: rest, d => (a = d) || globSetMatch rest d

/-- Parse a `[...]` class body after the opening bracket: optional `!`,
a leading `]` is a literal member; returns `(negated, set, rest)` or `none`
for an unterminated class. -/
def globParseClass (p : List Char) :
    Option (Bool × List Char × List Char) :=
  let (neg, p1) : Bool × List Char :=
    match p with
    | '!' :: r => (true, r)
    | r => (false, r)
  match p1 with
  | ']' :: r2 =>
    let body := r2.takeWhile (· ≠ ']')
    match r2.dropWhile (· ≠ ']') with
    | ']' :: rest => some (neg, ']' :: body, rest)
    | _ => none
  | _ =>
    let body := p1.takeWhile (· ≠ ']')
    match p1.dropWhile (· ≠ ']') with
    | ']' :: rest => some (neg, body, rest)
    | _ => none

/-- Fuel-driven glob matcher (every step shrinks pattern or name, so
`p.length + n.length + 1` fuel always suffices). -/
def globMatchAux (fuel : ℕ) (p n : List Char) : Bool :=
  match fuel with
  | 0 => false
  | fuel + 1 =>
    match p, n with
    | [], n => n.isEmpty
    | '*' :: p', n =>
      globMatchAux fuel p' n ||
        (match n with
         | [] => false
         | _ :: n' => globMatchAux fuel ('*' :: p') n')
    | '?' :: p', n =>
      match n with
      | [] => false
      | _ :: n' => globMatchAux fuel p' n'
    | '[' :: p', n =>
      match globParseClass p' with
      | some (neg, set, rest) =>
        match n with
        | [] => false
        | d :: n' => (globSetMatch set d != neg) && globMatchAux fuel rest n'
      | none =>
        match n with
        | [] => false
        | d :: n' => (d = '[') && globMatchAux fuel p' n'
    | c :: p', n =>
      match n with
      | [] => false
      | d :: n' => (c = d) && globMatchAux fuel p' n'

def globMatch (name pattern : String) : Bool :=
  globMatchAux (pattern.length + name.length + 1) pattern.data name.data

/-- The part of `s` after the first occurrence of `c` (`s.split(c, 1)[1]`;
only used when `c` occurs). -/
def splitAfterFirst (c : Char) (s : String) : String :=
  ⟨(s.data.dropWhile (· ≠ c)).tail⟩

/-- The part of `s` before the first occurrence of `c`
(`s.split(c, 1)[0]`). -/
def splitBeforeFirst (c : Char) (s : String) : String :=
  ⟨s.data.takeWhile (· ≠ c)⟩

/-- `MappingManager._matches_selector(primitive, selector)`. -/
def matchesSelector (p : SvgPrimitive) (selector : String) : Bool :=
  let sel := pyStrip selector
  if sel = "" then false
  else if pyLower sel = "any" then true
  else if ¬ sel.data.contains ':' then false
  else
    let selType := pyLower (pyStrip (splitBeforeFirst ':' sel))
    let selValue := pyStrip (splitAfterFirst ':' sel)
    if selType = "class" then
      p.classes.any (fun cls => globMatch cls selValue)
    else if selType = "tag" then globMatch p.kind selValue
    else if selType = "id" then
      match p.element_id with
      | some pid => globMatch pid selValue
      | none => false
    else if selType = "attr" ∧ selValue.data.contains '=' then
      let name := pyStrip (splitBeforeFirst '=' selValue)
      let value := pyStrip (splitAfterFirst '=' selValue)
      match p.attributes.lookup name with
      | some av => globMatch av value
      | none => false
    else if selType = "style" ∧ selValue.data.contains '=' then
      let name := pyStrip (splitBeforeFirst '=' selValue)
      let value := pyStrip (splitAfterFirst '=' selValue)
      match p.style.lookup name with
      | some sv => globMatch sv value
      | none => false
    else false

/-- Python value of a material-table `lineweight` field (number or
string). -/
inductive PyVal where
  | num (q : ℚ)
  | str (s : String)
deriving DecidableEq

/-- One value of the `material_layers` dict. -/
structure MaterialEntry where
  layer : Option String := none
  color : Option String := none
  linetype : Option String := none
  lineweight : Option PyVal := none
deriving DecidableEq

/-- One value of the `pattern_map` dict (after `_coerce_pattern_entry`:
`scale`/`angle` are floats and `solid` a bool when present). -/
structure PatternEntry where
  pattern : Option String := none
  scale : Option ℚ := none
  angle : Option ℚ := none
  color : Option String := none
  solid : Option Bool := none
deriving DecidableEq

/-- `MappingManager` (the fields the claims exercise; `font_map` is not
consulted by any claim). -/
structure MappingManager where
  rules : List MappingRule := []
  material_layers : List (String × MaterialEntry) := []
  pattern_map : List (String × PatternEntry) := []

/-- The alias dictionaries built by `_rebuild_aliases`
(`{key.lower(): key}`): the original key whose lowercasing equals the
query; on collisions the later dict entry wins, hence the reversed
search. -/
def aliasFind {α : Type} (table : List (String × α)) (q : String) :
    Option String :=
  (table.reverse.find? (fun e => pyLower e.1 = q)).map (·.1)

/-- Python string-or-`None` truthiness (`if key:`). -/
def truthyOpt : Option String → Bool
  | some s => s ≠ ""
  | none => false

/-- The `short` variable of `_material_attributes`: set only when the full
class name had no (truthy) alias hit and the class contains a dash. -/
def material_short (table : List (String × MaterialEntry))
    (material_class : String) : Option String :=
  if truthyOpt (aliasFind table (pyLower material_class)) then none
  else if material_class.data.contains '-' then
    some (splitAfterFirst '-' material_class)
  else none

/-- The `key` variable of `_material_attributes`: alias of the full class
name, else (for dashed names) alias of the suffix after the first dash. -/
def material_key (table : List (String × MaterialEntry))
    (material_class : String) : Option String :=
  let key0 := aliasFind table (pyLower material_class)
  if truthyOpt key0 then key0
  else if material_class.data.contains '-' then
    aliasFind table (pyLower (splitAfterFirst '-' material_class))
  else key0

/-- `config = self.material_layers.get(key) if key else None`. -/
def material_config (table : List (String × MaterialEntry))
    (material_class : String) : Option MaterialEntry :=
  if truthyOpt (material_key table material_class) then
    table.lookup ((material_key table material_class).getD "")
  else none

/-- A `material_config` hit is an entry of the table. -/
lemma material_config_mem (table : List (String × MaterialEntry))
    (mc : String) (cfg : MaterialEntry)
    (h : material_config table mc = some cfg) : ∃ k, (k, cfg) ∈ table := by
  unfold material_config at h
  by_cases ht : truthyOpt (material_key table mc) = true
  · rw [if_pos ht] at h
    exact ⟨_, lookup_mem _ _ _ h⟩
  · rw [if_neg ht] at h
    cases h

/-- `MappingManager._material_attributes(material_class, primitive)`. -/
def material_attributes (table : List (String × MaterialEntry))
    (material_class : String) (p : SvgPrimitive) :
    Except Unit LayerAttributes := do
  let config := material_config table material_class
  let short := material_short table material_class
  let fromClass :=
    if material_class.data.contains '-' then
      splitAfterFirst '-' material_class
    else material_class
  let short_key :=
    match short with
    | some sh => if sh = "" then fromClass else sh
    | none => fromClass
  let default_layer := "MAT-" ++ sanitize_layer_name short_key
  let default_color ← color_from_style p.style
  let default_lineweight := lineweight_from_style p.style
  match config with
  | none =>
    pure ⟨default_layer, default_color, "Continuous", default_lineweight⟩
  | some cfg =>
    let layer := cfg.layer.getD default_layer
    let color := (parse_color_spec cfg.color (some default_color)).getD
      default_color
    let linetype := cfg.linetype.getD "Continuous"
    let lineweight :=
      match cfg.lineweight with
      | some (.num q) => some q
      | some (.str s) =>
        match pyFloat s with
        | some q => some q
        | none => some (parse_length (some s))
      | none => default_lineweight
    pure ⟨layer, color, linetype, lineweight⟩

/-- `MappingManager.resolve(primitive)`: the first class starting with the
material prefix takes the material path; otherwise the first matching rule
wins, with unset rule attributes falling back to the style-derived
defaults; with no matching rule everything is style-derived on layer
`"0"`. -/
def resolve (m : MappingManager) (p : SvgPrimitive) :
    Except Unit LayerAttributes :=
  match p.classes.filter (fun c => pyStartsWith c "material-") with
  | mc :: _ => material_attributes m.material_layers mc p
  | [] =>
    match m.rules.find? (fun r => matchesSelector p r.selector) with
    | some rule => do
      let color ← if rule.color = "" then color_from_style p.style
                  else pure rule.color
      pure ⟨if rule.layer = "" then "0" else rule.layer,
            color,
            if rule.linetype = "" then linetype_from_style p.style
            else rule.linetype,
            match rule.lineweight_mm with
            | some w => some w
            | none => lineweight_from_style p.style⟩
    | none => do
      let color ← color_from_style p.style
      pure ⟨"0", color, linetype_from_style p.style,
            lineweight_from_style p.style⟩

/-- The default catch-all rule (last entry of
`MappingManager.default_rules`). -/
def anyRule : MappingRule :=
  { selector := "any", layer := "0", color := "BYLAYER",
    linetype := "Continuous", lineweight_mm := none }

/-! ## C2: color-spec normalization of numeric index strings -/

/-- The decimal digit characters. -/
def digitChars : List Char :=
  ['0', '1', '2', '3', '4', '5', '6', '7', '8', '9']

/-- C2 counterexample: `parse_color_spec` has no numeric-index branch, so
`"7"` (a valid index 1–255) is returned as the caller-supplied fallback,
not as a native color index. -/
theorem C2_counterexample :
    parse_color_spec (some "7") (some "#ABCDEF") = some "#ABCDEF" ∧
      parse_color_spec (some "7") (some "#ABCDEF") ≠ some "7" := by
  constructor
  · decide
  · decide

/-- C2 (amended): `parse_color_spec` accepts only `BYLAYER`/`BYBLOCK`, hex
and the named CSS colors; every non-empty all-digit string — numeric index
strings 1–255 included — falls back to the caller-supplied default. -/
theorem C2_digit_strings_fall_back (s : String) (fb : Option String)
    (hne : s ≠ "") (hdig : ∀ c ∈ s.data, c ∈ digitChars) :
    parse_color_spec (some s) fb = fb := by
  obtain ⟨c, cs, hdata⟩ : ∃ c cs, s.data = c :: cs := by
    cases s with
    | mk d =>
      cases d with
      | nil => exact absurd rfl hne
      | cons c cs => exact ⟨c, cs, rfl⟩
  have hc : c ∈ digitChars := hdig c (by rw [hdata]; exact List.mem_cons_self _ _)
  have hnws : ∀ x ∈ s.data, pyWS x = false := by
    intro x hx
    have hm := hdig x hx
    fin_cases hm <;> decide
  have hlowc : ∀ x ∈ s.data, pyLowerChar x = x := by
    intro x hx
    have hm := hdig x hx
    fin_cases hm <;> decide
  have hstrip : pyStrip s = s := pyStrip_eq_self hnws
  have hlow : pyLower s = s := pyLower_eq_self hlowc
  have hchar : ∀ d : Char,
      d ∈ ['b', 'w', 'r', 'g', 'y', 'm', 'c', 'l', 'd', '#'] → c ≠ d := by
    intro d hd heq
    subst heq
    revert hd
    fin_cases hc <;> decide
  have hne_of : ∀ (t : String) (d : Char), t.data.head? = some d →
      d ∈ ['b', 'w', 'r', 'g', 'y', 'm', 'c', 'l', 'd', '#'] → s ≠ t := by
    intro t d hh hd
    refine head_ne_string s t c cs hdata ?_
    rw [hh]
    intro hsome
    exact hchar d hd (by injection hsome with h'; exact h'.symm)
  have hpre : pyStartsWith s "#" = false := by
    unfold pyStartsWith
    rw [hdata]
    have : (("#" : String).data) = ['#'] := rfl
    rw [this]
    simp only [List.isPrefixOf]
    have : ('#' == c) = false := by
      refine beq_eq_false_iff_ne.mpr ?_
      exact fun h => hchar '#' (by decide) h.symm
    simp [this]
  have hlook : CSS_COLOR_MAP.lookup s = none := by
    have hne' : ∀ t : String, (s == t) = false → True := fun _ _ => trivial
    have hb : ∀ (t : String) (d : Char), t.data.head? = some d →
        d ∈ ['b', 'w', 'r', 'g', 'y', 'm', 'c', 'l', 'd', '#'] →
        (s == t) = false := by
      intro t d hh hd
      exact beq_eq_false_iff_ne.mpr (hne_of t d hh hd)
    simp only [CSS_COLOR_MAP, List.lookup,
      hb "black" 'b' rfl (by decide), hb "white" 'w' rfl (by decide),
      hb "red" 'r' rfl (by decide), hb "green" 'g' rfl (by decide),
      hb "blue" 'b' rfl (by decide), hb "yellow" 'y' rfl (by decide),
      hb "magenta" 'm' rfl (by decide), hb "cyan" 'c' rfl (by decide),
      hb "gray" 'g' rfl (by decide), hb "grey" 'g' rfl (by decide),
      hb "lightgray" 'l' rfl (by decide), hb "darkgray" 'd' rfl (by decide)]
  simp only [parse_color_spec]
  rw [if_neg hne, hstrip, if_neg hne, hlow]
  rw [if_neg (hne_of "bylayer" 'b' rfl (by decide)),
    if_neg (hne_of "byblock" 'b' rfl (by decide))]
  rw [if_neg (by rw [hpre]; exact Bool.false_ne_true), hlook]

/-- Witness for C2 (amended) at the index string `"7"`. -/
theorem C2_digit_strings_fall_back_witness :
    ("7" : String) ≠ "" ∧ parse_color_spec (some "7") (some "BYLAYER") =
      some "BYLAYER" :=
  ⟨by decide, C2_digit_strings_fall_back "7" (some "BYLAYER") (by decide)
    (by decide)⟩

/-! ## C4: rule fallback with only the catch-all rule -/

/-- The `any` selector matches every primitive. -/
lemma matchesSelector_any (p : SvgPrimitive) :
    matchesSelector p "any" = true := by
  unfold matchesSelector
  rw [show pyStrip "any" = "any" from by decide]
  rw [if_neg (by decide : ¬ ("any" : String) = ""),
    if_pos (by decide : pyLower "any" = "any")]

/-- C4 counterexample: with only the default catch-all `any` rule, a
primitive carrying the class `material-concrete` takes the material path and
resolves to layer `MAT-CONCRETE`, not `"0"` as the claim demands for every
primitive. -/
theorem C4_counterexample :
    resolve { rules := [anyRule] }
        { kind := "polyline", classes := ["material-concrete"] } =
      .ok { layer := "MAT-CONCRETE", color := "BYLAYER",
            linetype := "Continuous", lineweight_mm := none } ∧
      ("MAT-CONCRETE" : String) ≠ "0" := by
  constructor
  · decide
  · decide

/-- C4 (amended): with only the default catch-all `any` rule, every
primitive **without** a material class resolves to layer `"0"` and color
`BYLAYER` (line type `Continuous`, line weight style-derived); primitives
with a class starting `material-` take the material-table path instead. -/
theorem C4_any_rule_fallback (p : SvgPrimitive)
    (hmat : ∀ c ∈ p.classes, pyStartsWith c "material-" = false) :
    resolve { rules := [anyRule] } p =
      .ok { layer := "0", color := "BYLAYER", linetype := "Continuous",
            lineweight_mm := lineweight_from_style p.style } := by
  unfold resolve
  have hfilter : p.classes.filter (fun c => pyStartsWith c "material-")
      = [] := by
    rw [List.filter_eq_nil_iff]
    intro c hc
    rw [hmat c hc]
    exact Bool.false_ne_true
  rw [hfilter]
  have hfind : ([anyRule].find? (fun r => matchesSelector p r.selector)) =
      some anyRule := by
    rw [List.find?_cons_of_pos]
    exact matchesSelector_any p
  rw [hfind]
  simp only [anyRule, bind, Except.bind, pure, Except.pure]
  rw [if_neg (by decide : ¬ ("BYLAYER" : String) = "")]
  rw [if_neg (by decide : ¬ ("0" : String) = ""),
    if_neg (by decide : ¬ ("Continuous" : String) = "")]

/-- Witness for C4 (amended): a plain line primitive with no classes. -/
theorem C4_any_rule_fallback_witness :
    resolve { rules := [anyRule] } { kind := "line" } =
      .ok { layer := "0", color := "BYLAYER", linetype := "Continuous",
            lineweight_mm := none } := by
  have h := C4_any_rule_fallback { kind := "line" } (by intro c hc; cases hc)
  simpa using h

/-! ## C8: non-emptiness of resolved layer and color -/

lemma normalize_hex_ok_ne_empty (s t : String)
    (h : normalize_hex s = .ok t) : t ≠ "" := by
  unfold normalize_hex at h
  by_cases h1 : ¬ pyStartsWith s "#"
  · rw [if_pos h1] at h; exact absurd h (by simp)
  · rw [if_neg h1] at h
    by_cases h2 : (if (s.data.drop 1).length = 3
        then (s.data.drop 1).flatMap (fun c => [c, c])
        else s.data.drop 1).length ≠ 6
    · rw [if_pos h2] at h; exact absurd h (by simp)
    · rw [if_neg h2] at h
      by_cases h3 : ¬ (if (s.data.drop 1).length = 3
          then (s.data.drop 1).flatMap (fun c => [c, c])
          else s.data.drop 1).all isHexDigit
      · rw [if_pos h3] at h; exact absurd h (by simp)
      · rw [if_neg h3] at h
        have ht : t = ⟨'#' :: ((if (s.data.drop 1).length = 3
            then (s.data.drop 1).flatMap (fun c => [c, c])
            else s.data.drop 1).map pyUpperChar)⟩ := by
          injection h with h'
          exact h'.symm
        rw [ht]
        intro hcon
        have := congrArg String.data hcon
        simp at this

lemma color_from_style_ok_ne_empty (style : List (String × String))
    (c : String) (h : color_from_style style = .ok c) : c ≠ "" := by
  unfold color_from_style at h
  cases hs : hexColorCandidate (style.lookup "stroke") with
  | some s =>
    rw [hs] at h
    exact normalize_hex_ok_ne_empty s c h
  | none =>
    rw [hs] at h
    cases hf : hexColorCandidate (style.lookup "fill") with
    | some s =>
      rw [hf] at h
      exact normalize_hex_ok_ne_empty s c h
    | none =>
      rw [hf] at h
      have : c = "BYLAYER" := by injection h with h'; exact h'.symm
      rw [this]
      decide

lemma css_lookup_ne_empty (k c : String)
    (h : CSS_COLOR_MAP.lookup k = some c) : c ≠ "" := by
  have hm := lookup_mem CSS_COLOR_MAP k c h
  fin_cases hm <;> decide

lemma parse_color_spec_some_ne_empty (v : Option String) (d c : String)
    (hd : d ≠ "") (h : parse_color_spec v (some d) = some c) : c ≠ "" := by
  unfold parse_color_spec at h
  cases v with
  | none =>
    dsimp only at h
    have : c = d := by injection h with h'; exact h'.symm
    rw [this]; exact hd
  | some s =>
    dsimp only at h
    by_cases h0 : s = ""
    · rw [if_pos h0] at h
      have : c = d := by injection h with h'; exact h'.symm
      rw [this]; exact hd
    · rw [if_neg h0] at h
      by_cases h1 : pyStrip s = ""
      · rw [if_pos h1] at h
        have : c = d := by injection h with h'; exact h'.symm
        rw [this]; exact hd
      · rw [if_neg h1] at h
        by_cases h2 : pyLower (pyStrip s) = "bylayer"
        · rw [if_pos h2] at h
          have : c = "BYLAYER" := by injection h with h'; exact h'.symm
          rw [this]; decide
        · rw [if_neg h2] at h
          by_cases h3 : pyLower (pyStrip s) = "byblock"
          · rw [if_pos h3] at h
            have : c = "BYBLOCK" := by injection h with h'; exact h'.symm
            rw [this]; decide
          · rw [if_neg h3] at h
            by_cases h4 : pyStartsWith (pyStrip s) "#" = true
            · rw [if_pos h4] at h
              cases hx : normalize_hex (pyStrip s) with
              | ok t =>
                rw [hx] at h
                have : c = t := by injection h with h'; exact h'.symm
                rw [this]
                exact normalize_hex_ok_ne_empty _ _ hx
              | error e =>
                rw [hx] at h
                have : c = d := by injection h with h'; exact h'.symm
                rw [this]; exact hd
            · rw [if_neg h4] at h
              cases hl : CSS_COLOR_MAP.lookup (pyLower (pyStrip s)) with
              | some css =>
                rw [hl] at h
                have : c = css := by injection h with h'; exact h'.symm
                rw [this]
                exact css_lookup_ne_empty _ _ hl
              | none =>
                rw [hl] at h
                have : c = d := by injection h with h'; exact h'.symm
                rw [this]; exact hd

/-- A `"MAT-"`-prefixed layer name is never empty. -/
lemma mat_prefix_ne_empty (x : String) : ("MAT-" ++ x) ≠ "" := by
  intro h
  have := congrArg String.data h
  rw [String.data_append] at this
  simp at this

/-- A value of the raw `materials` configuration dict (string = bare layer
name, or a nested dict). -/
inductive MatVal where
  | str (s : String)
  | dict (layer color linetype : Option String) (lineweight : Option PyVal)

/-- `_normalize_material_map(data)`: whitespace keys are dropped; a string
value becomes `{"layer": value.strip()}` (kept even when the strip leaves
an empty layer name, since the entry dict itself is non-empty); dict values
keep the four known fields that are neither `None` nor `""`, and the entry
is dropped when nothing remains. -/
def normalize_material_map (data : List (String × MatVal)) :
    List (String × MaterialEntry) :=
  data.filterMap fun kv =>
    let key_clean := pyStrip kv.1
    if key_clean = "" then none
    else
      match kv.2 with
      | .str v => some (key_clean, { layer := some (pyStrip v) })
      | .dict l c lt lw =>
        let keep : Option String → Option String := fun o =>
          match o with
          | some x => if x = "" then none else some x
          | none => none
        let keepW : Option PyVal → Option PyVal := fun o =>
          match o with
          | some (.str x) => if x = "" then none else some (.str x)
          | some w => some w
          | none => none
        let e : MaterialEntry :=
          { layer := keep l, color := keep c, linetype := keep lt,
            lineweight := keepW lw }
        if e = ({} : MaterialEntry) then none else some (key_clean, e)

/-- C8 counterexample: a material entry whose configured layer name is the
empty string (reachable through `_normalize_material_map` from the
whitespace string value `"  "`) makes `resolve` return an **empty** layer
name. -/
theorem C8_counterexample :
    normalize_material_map [("x", .str "  ")] =
        [("x", { layer := some "" })] ∧
      resolve { material_layers := [("x", { layer := some "" })] }
          { kind := "polyline", classes := ["material-x"] } =
        .ok { layer := "", color := "BYLAYER", linetype := "Continuous",
              lineweight_mm := none } := by
  constructor
  · decide
  · decide

/-- C8 (amended): whenever `resolve` returns attributes (it can raise on a
malformed hex style color) and every material-table entry that sets a layer
sets it non-empty, the resolved layer name and color spec are non-empty (a
table entry with layer `""` — e.g. from a whitespace string value in the
raw configuration — yields an empty layer name, so the invariant needs
that proviso). -/
theorem C8_resolve_nonempty (m : MappingManager) (p : SvgPrimitive)
    (attrs : LayerAttributes) (hok : resolve m p = .ok attrs)
    (htab : ∀ kv ∈ m.material_layers, ∀ l, kv.2.layer = some l → l ≠ "") :
    attrs.layer ≠ "" ∧ attrs.color ≠ "" := by
  unfold resolve at hok
  cases hmc : p.classes.filter (fun c => pyStartsWith c "material-") with
  | cons mc rest =>
    rw [hmc] at hok
    unfold material_attributes at hok
    simp only [bind, Except.bind] at hok
    cases hcs : color_from_style p.style with
    | error e => rw [hcs] at hok; cases hok
    | ok d =>
      rw [hcs] at hok
      have hd : d ≠ "" := color_from_style_ok_ne_empty _ _ hcs
      cases hcfg : material_config m.material_layers mc with
      | none =>
        rw [hcfg] at hok
        dsimp only at hok
        injection hok with hok'
        rw [← hok']
        exact ⟨mat_prefix_ne_empty _, hd⟩
      | some cfg =>
        rw [hcfg] at hok
        dsimp only at hok
        injection hok with hok'
        rw [← hok']
        constructor
        · cases hl : cfg.layer with
          | none => simp only [hl, Option.getD_none]; exact mat_prefix_ne_empty _
          | some l =>
            simp only [hl, Option.getD_some]
            obtain ⟨k, hk⟩ := material_config_mem _ _ _ hcfg
            exact htab (k, cfg) hk l hl
        · cases hpc : parse_color_spec cfg.color (some d) with
          | none => simp only [hpc, Option.getD_none]; exact hd
          | some c =>
            simp only [hpc, Option.getD_some]
            exact parse_color_spec_some_ne_empty _ _ _ hd hpc
  | nil =>
    rw [hmc] at hok
    cases hfind : m.rules.find? (fun r => matchesSelector p r.selector) with
    | some rule =>
      rw [hfind] at hok
      simp only [bind, Except.bind, pure, Except.pure] at hok
      by_cases hrc : rule.color = ""
      · rw [if_pos hrc] at hok
        cases hcs : color_from_style p.style with
        | error e => rw [hcs] at hok; cases hok
        | ok c =>
          rw [hcs] at hok
          dsimp only at hok
          injection hok with hok'
          rw [← hok']
          refine ⟨?_, color_from_style_ok_ne_empty _ _ hcs⟩
          show (if rule.layer = "" then "0" else rule.layer) ≠ ""
          by_cases hrl : rule.layer = ""
          · rw [if_pos hrl]; decide
          · rw [if_neg hrl]; exact hrl
      · rw [if_neg hrc] at hok
        injection hok with hok'
        rw [← hok']
        refine ⟨?_, hrc⟩
        show (if rule.layer = "" then "0" else rule.layer) ≠ ""
        by_cases hrl : rule.layer = ""
        · rw [if_pos hrl]; decide
        · rw [if_neg hrl]; exact hrl
    | none =>
      rw [hfind] at hok
      simp only [bind, Except.bind, pure, Except.pure] at hok
      cases hcs : color_from_style p.style with
      | error e => rw [hcs] at hok; cases hok
      | ok c =>
        rw [hcs] at hok
        dsimp only at hok
        injection hok with hok'
        rw [← hok']
        refine ⟨?_, color_from_style_ok_ne_empty _ _ hcs⟩
        show ("0" : String) ≠ ""
        decide

/-- Witness for C8 at a plain line primitive with only the catch-all
rule. -/
theorem C8_resolve_nonempty_witness :
    ({ layer := "0", color := "BYLAYER", linetype := "Continuous",
       lineweight_mm := none } : LayerAttributes).layer ≠ "" ∧
      ({ layer := "0", color := "BYLAYER", linetype := "Continuous",
         lineweight_mm := none } : LayerAttributes).color ≠ "" :=
  C8_resolve_nonempty { rules := [anyRule] } { kind := "line" } _
    (by decide) (by intro kv hkv; cases hkv)

/-! ## Entity synthesis (`src/dxf_writer.py`, `DxfWriter._write_polyline`)

The modelspace is modelled as the list of entities added; the external
`ezdxf` pattern validation (`set_pattern_fill` raising `DXFValueError` on an
unknown pattern name) is a boolean parameter `validPattern`.  `write()`
always sets `self.mapping`, so the mapping manager is modelled as
present. -/

/-- `MappingManager.extract_pattern_id(fill_value)`. -/
def extract_pattern_id (fill_value : Option String) : Option String :=
  match fill_value with
  | none => none
  | some fv =>
    if fv = "" then none
    else
      let value := pyStrip fv
      if ¬ pyStartsWith (pyLower value) "url(" then none
      else
        let inside0 := pyStrip ⟨(value.data.drop 4).dropLast⟩
        let inside := if pyStartsWith inside0 "#" then ⟨inside0.data.drop 1⟩
                      else inside0
        if inside = "" then none else some (pyLower inside)

/-- `MappingManager.resolve_pattern(pattern_id)`. -/
def resolve_pattern (m : MappingManager) (pattern_id : Option String) :
    Option PatternEntry :=
  match pattern_id with
  | none => none
  | some pid =>
    if pid = "" then none
    else
      let key := aliasFind m.pattern_map (pyLower pid)
      if ¬ truthyOpt key then none
      else m.pattern_map.lookup (key.getD "")

/-- An entity added to the modelspace (the fields the claims observe). -/
inductive DxfEntity where
  | hatch (layer : Option String) (solid : Bool)
      (pattern : Option (String × ℚ × ℚ)) (color_spec : Option String)
      (boundary : List Pt)
  | lwpolyline (points : List Pt) (closed : Bool)

/-- `stroke_width <= 0.1` when a width was parsed (`None` compares
false). -/
def widthAtMostTenth : Option ℚ → Prop
  | some w => w ≤ 1/10
  | none => False

instance : DecidablePred widthAtMostTenth := fun o => by
  cases o with
  | none => exact isFalse (fun h => h)
  | some w => exact inferInstanceAs (Decidable (w ≤ 1/10))

/-- `DxfWriter._write_polyline(msp, points, extra, attrs, log, primitive)`,
as the list of entities it adds (a hatch first, then the boundary
polyline unless suppressed). -/
noncomputable def write_polyline (validPattern : String → Bool)
    (m : MappingManager) (attrs : LayerAttributes) (p : SvgPrimitive) :
    List DxfEntity :=
  if p.points.length < 2 then []
  else
    let closed := p.extra.closed
    let fill_raw_value := pyStrip ((p.style.lookup "fill").getD "")
    let fill_value := pyLower fill_raw_value
    let has_fill := closed = true ∧
      fill_value ∉ (["", "none", "transparent"] : List String)
    let pattern_info :=
      if has_fill then resolve_pattern m (extract_pattern_id (some fill_value))
      else none
    let pattern_color_spec :=
      match pattern_info with
      | some info => parse_color_spec info.color none
      | none => none
    let stroke_value := pyLower (pyStrip ((p.style.lookup "stroke").getD ""))
    let stroke_width : Option ℚ :=
      match p.style.lookup "stroke-width" with
      | none => none
      | some sw =>
        if sw = "" then none
        else
          match pyFloat sw with
          | some q => some q
          | none => some (parse_length (some sw))
    let material_class := p.classes.any (fun c => pyStartsWith c "material-")
    if closed = false ∧ material_class = true ∧ "projection" ∈ p.classes ∧
        (stroke_value ∈ (["", "none", "transparent"] : List String) ∨
          widthAtMostTenth stroke_width) then []
    else
      let hatchE : List DxfEntity :=
        if has_fill then
          let fill : Bool × Option (String × ℚ × ℚ) :=
            match pattern_info with
            | some info =>
              if info.solid.getD false then (true, none)
              else
                match info.pattern with
                | some name =>
                  if name ≠ "" then
                    let sc0 := info.scale.getD 1
                    let sc := if sc0 = 0 then 1 else sc0
                    let an0 := info.angle.getD 0
                    let an := if an0 = 0 then 0 else an0
                    if validPattern name then (false, some (name, sc, an))
                    else (true, none)
                  else (true, none)
                | none => (true, none)
            | none => (true, none)
          let color_spec :=
            match pattern_color_spec with
            | some c => some c
            | none => parse_color_spec (some fill_raw_value) none
          [DxfEntity.hatch (if attrs.layer = "" then none else some attrs.layer)
            fill.1 fill.2 color_spec p.points]
        else []
      let skip_boundary := has_fill ∧ material_class = true ∧
        "cut" ∉ p.classes ∧
        (stroke_value ∈ (["", "none", "transparent"] : List String) ∨
          widthAtMostTenth stroke_width)
      let polyE : List DxfEntity :=
        if ¬ skip_boundary then
          let poly_points :=
            if closed = true ∧ p.points.headI = p.points.getLastI ∧
                1 < p.points.length then
              p.points.dropLast
            else p.points
          [DxfEntity.lwpolyline poly_points closed]
        else []
      hatchE ++ polyE

/-- C5: a closed polyline with class `material-concrete`, no `cut` class,
fill `#808080` and stroke `none` produces exactly one (solid) hatch entity
over the full point ring and **no** boundary polyline — for every mapping
manager, resolved attributes, pattern validator and point list of length at
least 2. -/
theorem C5_material_fill_suppression (vp : String → Bool)
    (m : MappingManager) (attrs : LayerAttributes) (p : SvgPrimitive)
    (hlen : 2 ≤ p.points.length)
    (hclosed : p.extra.closed = true)
    (hfill : p.style.lookup "fill" = some "#808080")
    (hstroke : p.style.lookup "stroke" = some "none")
    (hmat : "material-concrete" ∈ p.classes)
    (hcut : "cut" ∉ p.classes) :
    write_polyline vp m attrs p =
      [DxfEntity.hatch (if attrs.layer = "" then none else some attrs.layer)
        true none (some "#808080") p.points] := by
  have hmc : p.classes.any (fun c => pyStartsWith c "material-") = true :=
    List.any_eq_true.mpr ⟨"material-concrete", hmat, by decide⟩
  unfold write_polyline
  rw [if_neg (Nat.not_lt.mpr hlen)]
  simp +decide only [hclosed, hfill, hstroke, Option.getD_some,
    show pyStrip "#808080" = "#808080" from by decide,
    show pyLower "#808080" = "#808080" from by decide,
    show pyStrip "none" = "none" from by decide,
    show pyLower "none" = "none" from by decide,
    show extract_pattern_id (some "#808080") = none from by decide,
    show parse_color_spec (some "#808080") none = some "#808080"
      from by decide,
    resolve_pattern, hmc, hcut, List.append_nil, if_true, if_false,
    false_and, true_and, and_true, and_false, true_or, or_true, not_true,
    not_false_iff]

/-- Witness for C5 at a concrete unit-square primitive. -/
theorem C5_material_fill_suppression_witness :
    write_polyline (fun _ => true) {} { layer := "0" }
        { kind := "polyline",
          points := [((0 : ℝ), (0 : ℝ)), (1, 0), (1, 1), (0, 0)],
          style := [("fill", "#808080"), ("stroke", "none")],
          classes := ["material-concrete"],
          extra := { closed := true } } =
      [DxfEntity.hatch (some "0") true none (some "#808080")
        [((0 : ℝ), (0 : ℝ)), (1, 0), (1, 1), (0, 0)]] := by
  have h := C5_material_fill_suppression (fun _ => true) {} { layer := "0" }
    { kind := "polyline",
      points := [((0 : ℝ), (0 : ℝ)), (1, 0), (1, 1), (0, 0)],
      style := [("fill", "#808080"), ("stroke", "none")],
      classes := ["material-concrete"],
      extra := { closed := true } }
    (by simp) (by rfl) (by decide) (by decide) (by decide) (by decide)
  simpa using h

/-! ## Document loader skeleton (`src/svg_loader.py`, `SvgLoader`)

Only the recursion/visited-set/exception structure of `_load_internal` and
`_create_image` is modelled — the part claim C1 is about.  Geometry,
transforms, styles and the non-image element constructors are abstracted:
a file is a list of elements that are either opaque primitives or image
references to another (already resolved) path.  The mutable `visited` set
is threaded functionally: `_load_internal` adds the path on entry and
removes it on exit, which is equivalent to passing `visited ∪ {path}` to
the recursive calls made while processing the file.  The `RuntimeError`
raised on a visited path is caught by `_create_image`'s
`except RuntimeError` and turned into a warning; an `OSError` (file became
unreadable) is re-raised and propagates. -/

/-- A document path (paths are compared after `Path.resolve()`; the model
works with already-canonical identifiers). -/
abbrev DocPath := ℕ

/-- An element of a document: an opaque primitive, or an `image` element
whose `href` resolved to another SVG path. -/
inductive XElem where
  | prim (id : ℕ)
  | image (href : DocPath)
deriving DecidableEq

/-- A source file: its list of elements in document order. -/
structure XFile where
  elems : List XElem
deriving DecidableEq

/-- The filesystem: an association of canonical paths to files. -/
abbrev FileSystem := List (DocPath × XFile)

/-- Load errors: the circular-reference `RuntimeError`, an IO error from
`etree.parse` (an `OSError`, which `_create_image` does *not* catch), and
an out-of-fuel marker (never reached with fuel `≥` the filesystem size,
since `visited` only grows along a chain). -/
inductive LoadError where
  | circular (path : DocPath)
  | io (path : DocPath)
  | fuel
deriving DecidableEq

/-- Warnings accumulated in `SvgDocument.warnings` (messages are modelled
structurally, not as formatted strings). -/
inductive LoadWarning where
  /-- `경고: 참조한 SVG 파일을 찾을 수 없습니다` — missing referenced file. -/
  | missingFile (href : DocPath)
  /-- `경고: SVG 이미지 참조를 불러오지 못했습니다` — a caught
  `RuntimeError` from the recursive load, the circular error included. -/
  | loadFailed (href : DocPath) (err : LoadError)
  /-- `참고: 임베디드 SVG ... 요소 로드` — embedded-load note with the
  number of loaded primitives. -/
  | embedded (href : DocPath) (count : ℕ)
  /-- An embedded document's own warning, prefixed with its name. -/
  | nested (href : DocPath) (w : LoadWarning)
deriving DecidableEq

/-- The loaded document: its primitives in order and its warnings. -/
structure XDoc where
  prims : List ℕ
  warnings : List LoadWarning
deriving DecidableEq

/-- Process the elements of one file (the `while stack` loop restricted to
the element kinds modelled).  `loadRec` is the recursive `_load_internal`
call made by `_create_image`; its `RuntimeError` (the circular error) is
caught and becomes a warning, any other error propagates. -/
def processElems (loadRec : DocPath → Except LoadError XDoc)
    (fs : FileSystem) :
    List XElem → Except LoadError XDoc
  | [] => .ok ⟨[], []⟩
  | e :: rest =>
    match e with
    | .prim i => do
      let tail ← processElems loadRec fs rest
      pure ⟨i :: tail.prims, tail.warnings⟩
    | .image href =>
      if (fs.lookup href).isNone then do
        let tail ← processElems loadRec fs rest
        pure ⟨tail.prims, .missingFile href :: tail.warnings⟩
      else
        match loadRec href with
        | .ok sub => do
          let tail ← processElems loadRec fs rest
          pure ⟨sub.prims ++ tail.prims,
            (.embedded href sub.prims.length ::
              sub.warnings.map (.nested href)) ++ tail.warnings⟩
        | .error (.circular q) => do
          let tail ← processElems loadRec fs rest
          pure ⟨tail.prims, .loadFailed href (.circular q) :: tail.warnings⟩
        | .error err => throw err

/-- `SvgLoader._load_internal(path, visited)`. -/
def load_internal (fs : FileSystem) :
    ℕ → DocPath → List DocPath → Except LoadError XDoc
  | 0, _, _ => .error .fuel
  | fuel + 1, path, visited =>
    if path ∈ visited then .error (.circular path)
    else
      match fs.lookup path with
      | none => .error (.io path)
      | some file =>
        processElems (fun href => load_internal fs fuel href (path :: visited))
          fs file.elems

/-- `SvgLoader.load(path)`: a fresh empty `visited` set per top-level
call; `fs.length + 1` fuel is enough because `visited` grows along every
chain of recursive loads and paths outside the filesystem fail at once. -/
def load (fs : FileSystem) (path : DocPath) : Except LoadError XDoc :=
  load_internal fs (fs.length + 1) path []

/-- A list containing two distinct elements has length at least 2. -/
lemma two_le_length_of_mem_ne {α : Type} {x y : α} {l : List α}
    (hx : x ∈ l) (hy : y ∈ l) (hxy : x ≠ y) : 2 ≤ l.length := by
  cases l with
  | nil => cases hx
  | cons z r =>
    cases r with
    | nil =>
      rw [List.mem_singleton] at hx hy
      exact absurd (hx.trans hy.symm) hxy
    | cons w r' => simp only [List.length_cons]; omega

/-- C1 counterexample: document `0` embeds document `1` which embeds
document `0` again.  The top-level load **succeeds** — returning a partial
document whose warnings record the caught circular-reference error — rather
than aborting: `_create_image` catches the `RuntimeError` raised by the
recursive `_load_internal` call. -/
theorem C1_counterexample :
    load [(0, ⟨[.image 1]⟩), (1, ⟨[.image 0]⟩)] 0 =
      .ok ⟨[], [.embedded 1 0,
        .nested 1 (.loadFailed 0 (.circular 0))]⟩ := by
  decide

/-- C1 (amended): for any two distinct paths `a`, `b` where `a`'s file is
exactly an image of `b` and `b`'s file an image of `a`, the circular
reference is detected (the innermost recursive load raises the circular
error for path `a`), but the image handler catches it and converts it into
a warning: the top-level load of `a` returns a document with **no**
primitives from the cycle and a warning chain recording the caught
circular-reference error — it does not abort. -/
theorem C1_cycle_downgraded_to_warning (fs : FileSystem) (a b : DocPath)
    (hab : a ≠ b)
    (ha : fs.lookup a = some ⟨[.image b]⟩)
    (hb : fs.lookup b = some ⟨[.image a]⟩) :
    load fs a =
      .ok ⟨[], [.embedded b 0,
        .nested b (.loadFailed a (.circular a))]⟩ := by
  have h2 : 2 ≤ fs.length :=
    two_le_length_of_mem_ne (lookup_mem fs a _ ha) (lookup_mem fs b _ hb)
      (by intro h; exact hab (congrArg Prod.fst h))
  obtain ⟨k, hk⟩ : ∃ k, fs.length = k + 2 := ⟨fs.length - 2, by omega⟩
  have hba : ¬ b ∈ [a] := by
    rw [List.mem_singleton]
    exact fun h => hab h.symm
  unfold load
  rw [hk]
  show load_internal fs (k + 1 + 1 + 1) a [] = _
  simp only [load_internal, processElems, ha, hb, bind, Except.bind, pure,
    Except.pure, List.not_mem_nil, if_false, Option.isNone_some,
    Bool.false_eq_true, hba, List.mem_cons, List.mem_singleton, or_true,
    true_or, or_false, false_or, if_true, eq_self_iff_true]
  rfl

/-- Witness for C1 (amended) at the concrete two-document cycle. -/
theorem C1_cycle_downgraded_witness :
    load [(0, ⟨[.image 1]⟩), (1, ⟨[.image 0]⟩)] 0 =
      .ok ⟨[], [.embedded 1 0,
        .nested 1 (.loadFailed 0 (.circular 0))]⟩ :=
  C1_cycle_downgraded_to_warning [(0, ⟨[.image 1]⟩), (1, ⟨[.image 0]⟩)] 0 1
    (by decide) (by decide) (by decide)

/-! ## C3: closed-ring integrity of the simplifier -/

/-- The last element of `l ++ [x]` (with `Inhabited` default) is `x`. -/
lemma getLastI_concat (l : List Pt) (x : Pt) : (l ++ [x]).getLastI = x := by
  rw [List.getLastI_eq_getLast?, List.getLast?_concat]

/-- The closure step of the closed branch (`if simplified[0] !=
simplified[-1]: simplified.append(simplified[0])`) always yields a
non-empty list whose first and last elements agree. -/
lemma closure_step_spec (x : Pt) (t : List Pt) :
    (if (x :: t).headI ≠ (x :: t).getLastI
      then (x :: t) ++ [(x :: t).headI] else (x :: t)) ≠ [] ∧
    (if (x :: t).headI ≠ (x :: t).getLastI
      then (x :: t) ++ [(x :: t).headI] else (x :: t)).headI =
    (if (x :: t).headI ≠ (x :: t).getLastI
      then (x :: t) ++ [(x :: t).headI] else (x :: t)).getLastI := by
  by_cases hne : (x :: t).headI ≠ (x :: t).getLastI
  · rw [if_pos hne]
    refine ⟨by simp, ?_⟩
    rw [getLastI_concat, List.cons_append, List.headI_cons, List.headI_cons]
  · rw [if_neg hne]
    exact ⟨by simp, not_ne_iff.mp hne⟩

/-- The closed branch of `simplify_polyline` (inputs of length ≥ 3) always
returns a non-empty list whose first and last points are equal. -/
lemma simplify_closed_head_eq_last (pts : List Pt) (tol ms : ℝ)
    (h3 : 3 ≤ pts.length) :
    simplify_polyline pts true tol ms ≠ [] ∧
    (simplify_polyline pts true tol ms).headI =
      (simplify_polyline pts true tol ms).getLastI := by
  unfold simplify_polyline
  rw [if_neg (Nat.not_lt.mpr h3)]
  dsimp only
  exact closure_step_spec _ _

/-- C3 counterexample: a closed 2-point input (fewer than 3 points) is
returned unchanged, so its first and last points remain different. -/
theorem C3_counterexample :
    simplify_polyline [((0 : ℝ), (0 : ℝ)), (1, 0)] true 0.5 0.05 =
        [((0 : ℝ), (0 : ℝ)), (1, 0)] ∧
      ¬ ([((0 : ℝ), (0 : ℝ)), (1, 0)] : List Pt).headI =
        ([((0 : ℝ), (0 : ℝ)), (1, 0)] : List Pt).getLastI := by
  constructor
  · unfold simplify_polyline
    rw [if_pos (by simp)]
  · intro h
    rw [List.headI_cons] at h
    rw [show ([((0 : ℝ), (0 : ℝ)), (1, 0)] : List Pt).getLastI = ((1 : ℝ), (0 : ℝ))
      from by rw [List.getLastI_eq_getLast?]; rfl] at h
    have := congrArg Prod.fst h
    norm_num at this

/-- C3 (amended): for every point list **with at least 3 points** passed to
the simplifier with the closed flag set, the returned list is non-empty and
its first and last points are equal (closure is preserved or restored by
re-appending the start point); inputs with fewer than 3 points are returned
unchanged and are closed only if they already were. -/
theorem C3_closed_ring_integrity (pts : List Pt) (tol ms : ℝ)
    (h3 : 3 ≤ pts.length) :
    simplify_polyline pts true tol ms ≠ [] ∧
    (simplify_polyline pts true tol ms).headI =
      (simplify_polyline pts true tol ms).getLastI :=
  simplify_closed_head_eq_last pts tol ms h3

/-- Witness for C3 (amended) at a concrete triangle. -/
theorem C3_closed_ring_integrity_witness :
    simplify_polyline [((0 : ℝ), (0 : ℝ)), (1, 0), (0, 1)] true 0.5 0.05 ≠ [] ∧
    (simplify_polyline [((0 : ℝ), (0 : ℝ)), (1, 0), (0, 1)] true 0.5 0.05).headI =
      (simplify_polyline [((0 : ℝ), (0 : ℝ)), (1, 0), (0, 1)] true 0.5 0.05).getLastI :=
  C3_closed_ring_integrity [((0 : ℝ), (0 : ℝ)), (1, 0), (0, 1)] 0.5 0.05
    (by simp)

/-! ## C6: re-simplification -/

/-- The kept interior points form a sublist of the input without its first
and last elements. -/
lemma interiorKeep_sublist (tol ms : ℝ) (l : List Pt) :
    (interiorKeep tol ms l).Sublist (l.drop 1).dropLast := by
  induction l using interiorKeep.induct tol ms with
  | case1 p c n rest ih =>
    rw [interiorKeep]
    have hshape : ((p :: c :: n :: rest).drop 1).dropLast =
        c :: ((n :: rest).dropLast) := by simp
    rw [hshape]
    by_cases hk : turnAngle ms p c n > tol
    · rw [if_pos hk]
      exact List.cons_sublist_cons.mpr (by simpa using ih)
    · rw [if_neg hk]
      exact List.Sublist.cons c (by simpa using ih)
  | case2 l h =>
    have hnil : interiorKeep tol ms l = [] := by
      cases l with
      | nil => rfl
      | cons a t =>
        cases t with
        | nil => rfl
        | cons b t2 =>
          cases t2 with
          | nil => rfl
          | cons d t3 => exact absurd rfl (h a b d t3)
    rw [hnil]
    exact List.nil_sublist _

/-- The kept interior points followed by the final point form a sublist of
the input without its first element (inputs of length ≥ 2). -/
lemma interiorKeep_concat_last_sublist (tol ms : ℝ) (l : List Pt)
    (h2 : 2 ≤ l.length) :
    (interiorKeep tol ms l ++ [l.getLastI]).Sublist (l.drop 1) := by
  induction l using interiorKeep.induct tol ms with
  | case1 p c n rest ih =>
    have hlast : (p :: c :: n :: rest).getLastI =
        (c :: n :: rest).getLastI := by
      rw [List.getLastI_eq_getLast?, List.getLastI_eq_getLast?,
        List.getLast?_cons_cons]
    rw [interiorKeep, hlast]
    have ih2 := ih (by simp)
    rw [List.drop_one, List.tail_cons] at ih2 ⊢
    by_cases hk : turnAngle ms p c n > tol
    · rw [if_pos hk]
      exact List.cons_sublist_cons.mpr ih2
    · rw [if_neg hk]
      rw [List.nil_append]
      exact List.Sublist.cons c ih2
  | case2 l h =>
    match l, h2 with
    | [a, b], _ =>
      show ([] ++ [([a, b] : List Pt).getLastI]).Sublist (([a, b] : List Pt).drop 1)
      rw [List.nil_append,
        show ([a, b] : List Pt).getLastI = b from by
          rw [List.getLastI_eq_getLast?]; rfl]
      exact List.Sublist.refl [b]
    | a :: b :: d :: t, _ => exact absurd rfl (h a b d t)

/-- The open branch of the simplifier returns a sublist of its input. -/
lemma simplify_open_sublist (pts : List Pt) (tol ms : ℝ) :
    (simplify_polyline pts false tol ms).Sublist pts := by
  unfold simplify_polyline
  by_cases hlen : pts.length < 3
  · rw [if_pos hlen]
  · rw [if_neg hlen]
    dsimp only
    cases pts with
    | nil => simp at hlen
    | cons a t =>
      rw [List.headI_cons]
      refine List.cons_sublist_cons.mpr ?_
      have h := interiorKeep_concat_last_sublist tol ms (a :: t)
        (by simp only [List.length_cons] at hlen ⊢; omega)
      rw [List.drop_one, List.tail_cons] at h
      exact h

/-- A non-empty list is its `dropLast` followed by its last element. -/
lemma dropLast_concat_getLastI (l : List Pt) (h : l ≠ []) :
    l.dropLast ++ [l.getLastI] = l := by
  induction l with
  | nil => exact absurd rfl h
  | cons x r ih =>
    cases r with
    | nil => rfl
    | cons y r2 =>
      have hx : (x :: y :: r2).dropLast = x :: (y :: r2).dropLast := by simp
      have hl : (x :: y :: r2).getLastI = (y :: r2).getLastI := by
        rw [List.getLastI_eq_getLast?, List.getLastI_eq_getLast?,
          List.getLast?_cons_cons]
      rw [hx, hl, List.cons_append, ih (by simp)]

/-- The closure step maps a sublist of `O.dropLast` whose head is
`O.getLastI` into a sublist of `O`. -/
lemma closure_step_sublist (s O : List Pt)
    (hsub : s.Sublist O.dropLast) (hsh : s.headI = O.getLastI)
    (hO : O ≠ []) :
    (if s.headI ≠ s.getLastI then s ++ [s.headI] else s).Sublist O := by
  by_cases h : s.headI ≠ s.getLastI
  · rw [if_pos h, hsh]
    have hdec : O = O.dropLast ++ [O.getLastI] :=
      (dropLast_concat_getLastI O hO).symm
    conv_rhs => rw [hdec]
    exact hsub.append_right [O.getLastI]
  · rw [if_neg h]
    exact hsub.trans (List.dropLast_sublist O)

/-- The closed branch applied to a list of length ≥ 3 whose first and last
points agree returns a sublist of its input. -/
lemma simplify_closed_sublist_of_head_eq_last (O : List Pt) (tol ms : ℝ)
    (hlen : ¬ O.length < 3) (hhl : O.headI = O.getLastI) :
    (simplify_polyline O true tol ms).Sublist O := by
  obtain ⟨a, b, t, rfl⟩ : ∃ a b t, O = a :: b :: t := by
    cases O with
    | nil => simp at hlen
    | cons a t1 =>
      cases t1 with
      | nil => simp at hlen
      | cons b t => exact ⟨a, b, t, rfl⟩
  have hcore : (a :: b :: t).dropLast = a :: (b :: t).dropLast := by simp
  have hgl : (a :: b :: t).getLastI = a := by rw [← hhl, List.headI_cons]
  unfold simplify_polyline
  rw [if_neg hlen, if_pos rfl]
  dsimp only
  rw [if_pos hhl]
  refine closure_step_sublist _ _ ?_ ?_ (by simp)
  · rw [hcore, List.headI_cons]
    refine List.cons_sublist_cons.mpr ?_
    have h1 := interiorKeep_sublist tol ms
      ((a :: (b :: t).dropLast) ++ [a])
    have hsh2 : (((a :: (b :: t).dropLast) ++ [a]).drop 1).dropLast =
        (b :: t).dropLast := by
      rw [List.cons_append, List.drop_one, List.tail_cons,
        List.dropLast_concat]
    rwa [hsh2] at h1
  · rw [hcore, List.headI_cons, List.headI_cons, hgl]

/-- C6 (amended): re-applying the simplifier to its own output with the
same tolerance and minimum-segment guard returns a **sublist** of that
output (it may drop further points whose turn angles fall under the
tolerance relative to their new neighbours); the result is not
identical in general. -/
theorem C6_resimplify_sublist (pts : List Pt) (closed : Bool)
    (tol ms : ℝ) :
    (simplify_polyline (simplify_polyline pts closed tol ms) closed tol
        ms).Sublist
      (simplify_polyline pts closed tol ms) := by
  cases closed with
  | false => exact simplify_open_sublist _ tol ms
  | true =>
    by_cases hlen : (simplify_polyline pts true tol ms).length < 3
    · generalize hO : simplify_polyline pts true tol ms = O at hlen ⊢
      rw [show simplify_polyline O true tol ms = O from by
        unfold simplify_polyline
        rw [if_pos hlen]]
    · have hp3 : ¬ pts.length < 3 := by
        intro hp
        have hsame : simplify_polyline pts true tol ms = pts := by
          unfold simplify_polyline
          rw [if_pos hp]
        rw [hsame] at hlen
        exact hlen hp
      exact simplify_closed_sublist_of_head_eq_last _ tol ms hlen
        (simplify_closed_head_eq_last pts tol ms (Nat.not_lt.mp hp3)).2

/-! ### Numeric facts for the C6 counterexample -/

/-- Rational bounds on `cos (π/360)` = `cos 0.5°`, the tolerance threshold
of the default simplifier. -/
lemma cos_pi360_bounds :
    (0.99996 : ℝ) < Real.cos (Real.pi/360) ∧
      Real.cos (Real.pi/360) < 0.999962 := by
  have hpi1 : Real.pi < 3.141593 := Real.pi_lt_3141593
  have hpi0 : (3.141592 : ℝ) < Real.pi := Real.pi_gt_3141592
  set x : ℝ := Real.pi/360 with hxdef
  have hx1 : x < 0.0087267 := by
    rw [hxdef, div_lt_iff (by norm_num : (0:ℝ) < 360)]
    linarith
  have hx0 : (0.0087266 : ℝ) < x := by
    rw [hxdef, lt_div_iff (by norm_num : (0:ℝ) < 360)]
    linarith
  have hxpos : 0 < x := by linarith
  have hx2hi : x^2 < 0.00007615533 := by nlinarith
  have hx2lo : (0.00007615354 : ℝ) < x^2 := by nlinarith
  have hx4 : x^4 < 0.0000000058 := by nlinarith
  constructor
  · have hlow := Real.one_sub_sq_div_two_le_cos (x := x)
    linarith
  · have habs : |x| ≤ 1 := by
      rw [abs_of_pos hxpos]
      linarith
    have hbound := Real.cos_bound habs
    rw [abs_of_pos hxpos] at hbound
    have hup : Real.cos x ≤ 1 - x^2/2 + x^4 * (5/96) :=
      by have := (abs_le.mp hbound).2; linarith
    linarith

/-- The turn-angle comparison against the default `0.5°` tolerance reduces
to comparing the (clamped) cosine against `cos (π/360)`. -/
lemma angle_gt_iff (y : ℝ) (hy1 : -1 ≤ y) (hy2 : y ≤ 1) :
    (Real.arccos y * 180 / Real.pi > 0.5) ↔
      y < Real.cos (Real.pi/360) := by
  have hpi := Real.pi_pos
  have ht0 : (0:ℝ) ≤ Real.pi/360 := by positivity
  have htpi : Real.pi/360 ≤ Real.pi := by linarith
  have hac : Real.arccos (Real.cos (Real.pi/360)) = Real.pi/360 :=
    Real.arccos_cos ht0 htpi
  constructor
  · intro h
    by_contra hc
    push_neg at hc
    have hmono : Real.arccos y ≤ Real.arccos (Real.cos (Real.pi/360)) := by
      rw [Real.arccos_eq_pi_div_two_sub_arcsin,
        Real.arccos_eq_pi_div_two_sub_arcsin]
      exact sub_le_sub_left (Real.monotone_arcsin hc) _
    rw [hac] at hmono
    rw [gt_iff_lt, lt_div_iff hpi] at h
    linarith
  · intro h
    have hstrict := Real.strictAntiOn_arccos ⟨hy1, hy2⟩
      ⟨Real.neg_one_le_cos _, Real.cos_le_one _⟩ h
    rw [hac] at hstrict
    rw [gt_iff_lt, lt_div_iff hpi]
    linarith

/-- `-1 ≤ clamp` and `clamp ≤ 1` for the clamped cosine. -/
lemma clamp_bounds (y : ℝ) :
    -1 ≤ max (-1) (min 1 y) ∧ max (-1) (min 1 y) ≤ 1 :=
  ⟨le_max_left _ _, max_le (by norm_num) (min_le_left _ _)⟩

/-- Evaluation of `turnAngle` outside the short-segment guard. -/
lemma turnAngle_eval (ms : ℝ) (p c n : Pt)
    (h1 : ¬ (seglen p c < ms ∨ seglen c n < ms ∨ seglen p c = 0 ∨
      seglen c n = 0)) :
    turnAngle ms p c n = Real.arccos (max (-1) (min 1
      (((c.1 - p.1) * (n.1 - c.1) + (c.2 - p.2) * (n.2 - c.2)) /
        (seglen p c * seglen c n)))) * 180 / Real.pi := by
  unfold turnAngle
  dsimp only
  rw [if_neg h1]

/-- First pass keeps `B = (1,0)`: the turn at `B` in `[A,B,C,D]` is about
`0.716° > 0.5°`. -/
lemma turn_ABC_gt :
    turnAngle 0.05 ((0:ℝ), (0:ℝ)) (1, 0) (2, 1/80) > 0.5 := by
  have hl1 : seglen ((0:ℝ), (0:ℝ)) (1, 0) = 1 := by
    unfold seglen
    norm_num
  have hl2sq : seglen ((1:ℝ), (0:ℝ)) (2, 1/80) ^ 2 = 6401/6400 := by
    unfold seglen
    rw [Real.sq_sqrt (by norm_num)]
    norm_num
  have hl2nn : 0 ≤ seglen ((1:ℝ), (0:ℝ)) (2, 1/80) := Real.sqrt_nonneg _
  have hl2ge1 : 1 ≤ seglen ((1:ℝ), (0:ℝ)) (2, 1/80) := by nlinarith
  have hcond : ¬ (seglen ((0:ℝ), (0:ℝ)) (1, 0) < 0.05 ∨
      seglen ((1:ℝ), (0:ℝ)) (2, 1/80) < 0.05 ∨
      seglen ((0:ℝ), (0:ℝ)) (1, 0) = 0 ∨
      seglen ((1:ℝ), (0:ℝ)) (2, 1/80) = 0) := by
    push_neg
    refine ⟨by rw [hl1]; norm_num, by linarith, by rw [hl1]; norm_num,
      by linarith⟩
  rw [turnAngle_eval _ _ _ _ hcond]
  dsimp only
  rw [hl1]
  set l2 := seglen ((1:ℝ), (0:ℝ)) (2, 1/80) with hl2def
  have hl2pos : (0:ℝ) < l2 := by linarith
  have hdot : ((1:ℝ) - 0) * (2 - 1) + ((0:ℝ) - 0) * (1/80 - 0) = 1 := by
    norm_num
  rw [hdot, one_mul]
  have hcv : 1 / l2 ≤ 0.99993 := by
    rw [div_le_iff hl2pos]
    nlinarith
  have hcvpos : (0:ℝ) < 1 / l2 := by positivity
  rw [min_eq_right (by linarith : 1 / l2 ≤ (1:ℝ)),
    max_eq_right (by linarith : (-1:ℝ) ≤ 1 / l2)]
  exact (angle_gt_iff (1 / l2) (by linarith) (by linarith)).mpr
    (by linarith [cos_pi360_bounds.1])

/-- First pass drops `C = (2, 1/80)`: the nearly straight continuation to
`D = (12, 1/16)` turns by about `0.32° < 0.5°`. -/
lemma turn_BCD_not_gt :
    ¬ (turnAngle 0.05 ((1:ℝ), (0:ℝ)) (2, 1/80) (12, 1/16) > 0.5) := by
  have hl1sq : seglen ((1:ℝ), (0:ℝ)) (2, 1/80) ^ 2 = 6401/6400 := by
    unfold seglen
    rw [Real.sq_sqrt (by norm_num)]
    norm_num
  have hl1nn : 0 ≤ seglen ((1:ℝ), (0:ℝ)) (2, 1/80) := Real.sqrt_nonneg _
  have hl1ge1 : 1 ≤ seglen ((1:ℝ), (0:ℝ)) (2, 1/80) := by nlinarith
  have hl2sq : seglen ((2:ℝ), (1/80 : ℝ)) (12, 1/16) ^ 2 = 40001/400 := by
    unfold seglen
    rw [Real.sq_sqrt (by norm_num)]
    norm_num
  have hl2nn : 0 ≤ seglen ((2:ℝ), (1/80 : ℝ)) (12, 1/16) :=
    Real.sqrt_nonneg _
  have hl2ge1 : 1 ≤ seglen ((2:ℝ), (1/80 : ℝ)) (12, 1/16) := by nlinarith
  have hcond : ¬ (seglen ((1:ℝ), (0:ℝ)) (2, 1/80) < 0.05 ∨
      seglen ((2:ℝ), (1/80 : ℝ)) (12, 1/16) < 0.05 ∨
      seglen ((1:ℝ), (0:ℝ)) (2, 1/80) = 0 ∨
      seglen ((2:ℝ), (1/80 : ℝ)) (12, 1/16) = 0) := by
    push_neg
    refine ⟨by linarith, by linarith, by linarith, by linarith⟩
  rw [turnAngle_eval _ _ _ _ hcond]
  dsimp only
  set l1 := seglen ((1:ℝ), (0:ℝ)) (2, 1/80) with hl1def
  set l2 := seglen ((2:ℝ), (1/80 : ℝ)) (12, 1/16) with hl2def
  have hprodpos : (0:ℝ) < l1 * l2 := by nlinarith
  have hprodsq : (l1 * l2) ^ 2 = 256046401/2560000 := by
    rw [mul_pow, hl1sq, hl2sq]
    norm_num
  have hdot : ((2:ℝ) - 1) * (12 - 2) + ((1/80 : ℝ) - 0) * (1/16 - 1/80) =
      16001/1600 := by norm_num
  rw [hdot]
  have hge : 0.999965 * (l1 * l2) ≤ 16001/1600 := by
    have h2 : (0.999965 * (l1 * l2)) ^ 2 ≤ ((16001:ℝ)/1600) ^ 2 := by
      rw [mul_pow, hprodsq]
      norm_num
    nlinarith
  have hcv : (0.999965 : ℝ) ≤ 16001/1600 / (l1 * l2) :=
    (le_div_iff hprodpos).mpr hge
  have hclamp : (0.999965 : ℝ) ≤
      max (-1) (min 1 (16001/1600 / (l1 * l2))) :=
    le_trans (le_min (by norm_num) hcv) (le_max_right _ _)
  intro hgt
  have hbnds := clamp_bounds (16001/1600 / (l1 * l2))
  have := (angle_gt_iff _ hbnds.1 hbnds.2).mp hgt
  linarith [cos_pi360_bounds.2]

/-- Evaluating the first simplification pass on the counterexample list. -/
lemma simplify_ex_first :
    simplify_polyline [((0:ℝ), (0:ℝ)), (1, 0), (2, 1/80), (12, 1/16)]
      false 0.5 0.05 = [((0:ℝ), (0:ℝ)), (1, 0), (12, 1/16)] := by
  have hIK : interiorKeep 0.5 0.05
      [((0:ℝ), (0:ℝ)), (1, 0), (2, 1/80), (12, 1/16)] = [((1:ℝ), (0:ℝ))] := by
    simp only [interiorKeep]
    rw [if_pos turn_ABC_gt, if_neg turn_BCD_not_gt]
    simp
  unfold simplify_polyline
  rw [if_neg (by simp), if_neg Bool.false_ne_true, hIK]
  simp [List.getLastI]

/-- Second pass drops `B = (1,0)`: against the new neighbour `D` the turn at
`B` is about `0.33° < 0.5°`. -/
lemma turn_ABD_not_gt :
    ¬ (turnAngle 0.05 ((0:ℝ), (0:ℝ)) (1, 0) (12, 1/16) > 0.5) := by
  have hl1 : seglen ((0:ℝ), (0:ℝ)) (1, 0) = 1 := by
    unfold seglen
    norm_num
  have hl2sq : seglen ((1:ℝ), (0:ℝ)) (12, 1/16) ^ 2 = 30977/256 := by
    unfold seglen
    rw [Real.sq_sqrt (by norm_num)]
    norm_num
  have hl2nn : 0 ≤ seglen ((1:ℝ), (0:ℝ)) (12, 1/16) := Real.sqrt_nonneg _
  have hl2ge1 : 1 ≤ seglen ((1:ℝ), (0:ℝ)) (12, 1/16) := by nlinarith
  have hcond : ¬ (seglen ((0:ℝ), (0:ℝ)) (1, 0) < 0.05 ∨
      seglen ((1:ℝ), (0:ℝ)) (12, 1/16) < 0.05 ∨
      seglen ((0:ℝ), (0:ℝ)) (1, 0) = 0 ∨
      seglen ((1:ℝ), (0:ℝ)) (12, 1/16) = 0) := by
    push_neg
    refine ⟨by rw [hl1]; norm_num, by linarith, by rw [hl1]; norm_num,
      by linarith⟩
  rw [turnAngle_eval _ _ _ _ hcond]
  dsimp only
  rw [hl1]
  set l2 := seglen ((1:ℝ), (0:ℝ)) (12, 1/16) with hl2def
  have hl2pos : (0:ℝ) < l2 := by linarith
  have hdot : ((1:ℝ) - 0) * (12 - 1) + ((0:ℝ) - 0) * (1/16 - 0) = 11 := by
    norm_num
  rw [hdot, one_mul]
  have hge : 0.999965 * l2 ≤ 11 := by
    have h2 : (0.999965 * l2) ^ 2 ≤ (11:ℝ) ^ 2 := by
      rw [mul_pow, hl2sq]
      norm_num
    nlinarith
  have hcv : (0.999965 : ℝ) ≤ 11 / l2 := (le_div_iff hl2pos).mpr hge
  have hclamp : (0.999965 : ℝ) ≤ max (-1) (min 1 (11 / l2)) :=
    le_trans (le_min (by norm_num) hcv) (le_max_right _ _)
  intro hgt
  have hbnds := clamp_bounds (11 / l2)
  have := (angle_gt_iff _ hbnds.1 hbnds.2).mp hgt
  linarith [cos_pi360_bounds.2]

/-- Evaluating the second simplification pass on the output of the first. -/
lemma simplify_ex_second :
    simplify_polyline [((0:ℝ), (0:ℝ)), (1, 0), (12, 1/16)]
      false 0.5 0.05 = [((0:ℝ), (0:ℝ)), (12, 1/16)] := by
  have hIK : interiorKeep 0.5 0.05
      [((0:ℝ), (0:ℝ)), (1, 0), (12, 1/16)] = [] := by
    simp only [interiorKeep]
    rw [if_neg turn_ABD_not_gt]
    simp
  unfold simplify_polyline
  rw [if_neg (by simp), if_neg Bool.false_ne_true, hIK]
  simp [List.getLastI]

/-- C6: the simplifier is NOT idempotent.  On the open polyline
`[(0,0), (1,0), (2,1/80), (12,1/16)]` with the default tolerances
(`angle_tol = 0.5`, `min_segment = 0.05`) the first pass keeps `(1,0)`
(its turn against the original neighbour `(2,1/80)` is ≈0.716° > 0.5°) but
drops `(2,1/80)`; in the result `(1,0)`'s new neighbour is `(12,1/16)`,
against which its turn is only ≈0.33°, so a second pass drops it too:
`simplify (simplify pts) ≠ simplify pts`. -/
theorem C6_counterexample :
    simplify_polyline (simplify_polyline
        [((0:ℝ), (0:ℝ)), (1, 0), (2, 1/80), (12, 1/16)] false 0.5 0.05)
      false 0.5 0.05 ≠
    simplify_polyline
        [((0:ℝ), (0:ℝ)), (1, 0), (2, 1/80), (12, 1/16)] false 0.5 0.05 := by
  rw [simplify_ex_first, simplify_ex_second]
  intro h
  have hlen := congrArg List.length h
  simp at hlen

end Svg2Dxf
